import Mathlib

/-!
Verification development for the feishu chat bot repository
(streaming chat gateway: session cache, streaming Dify adapter,
token cache, message orchestrator).

The definitions below are shallow embeddings of the Go source:

* `FeishuBot.Ai`            — `services/ai` (Message, Validate)
* `FeishuBot.SessionCache`  — `services/sessionCache.go`
* `FeishuBot.Dify`          — `services/ai/dify/dify.go`
* `FeishuBot.TokenCache`    — `handlers/msg.go` (getTenantAccessToken)
* `FeishuBot.Orchestrator`  — `handlers` MessageAction.Execute / handleCompletion
* `FeishuBot.HeapModel`     — heap-level model of GetMessages (map aliasing)

Go maps are modelled as association lists with unique keys
(`lookupKV` / `insertKV` / `eraseKV`); machine integers as `Int`
(the counters can go negative on unbalanced decrements, exactly as in
the Go source, where they are signed); wall-clock instants as `Nat`
timestamps passed explicitly; channels by explicit emission lists plus
a per-send "would the non-blocking send succeed" flag.
-/

namespace FeishuBot

/-! ## Association-list maps (model of Go `map`) -/

/-- First binding of key `k`, mirroring Go map lookup. -/
def lookupKV {α : Type} : List (String × α) → String → Option α
  | [], _ => none
  | (k', v) :: t, k => if k' = k then some v else lookupKV t k

/-- Go `m[k] = v`: replace the binding if the key is present, append otherwise. -/
def insertKV {α : Type} : List (String × α) → String → α → List (String × α)
  | [], k, v => [(k, v)]
  | (k', v') :: t, k, v =>
    if k' = k then (k, v) :: t else (k', v') :: insertKV t k v

/-- Go `delete(m, k)`. -/
def eraseKV {α : Type} : List (String × α) → String → List (String × α)
  | [], _ => []
  | (k', v) :: t, k => if k' = k then eraseKV t k else (k', v) :: eraseKV t k

@[simp] theorem lookupKV_nil {α : Type} (k : String) :
    lookupKV ([] : List (String × α)) k = none := rfl

@[simp] theorem lookupKV_cons {α : Type} (k' : String) (v : α) (t : List (String × α))
    (k : String) :
    lookupKV ((k', v) :: t) k = if k' = k then some v else lookupKV t k := rfl

theorem lookupKV_insertKV_self {α : Type} (l : List (String × α)) (k : String) (v : α) :
    lookupKV (insertKV l k v) k = some v := by
  induction l with
  | nil => simp [insertKV]
  | cons h t ih =>
    obtain ⟨k', v'⟩ := h
    by_cases hk : k' = k <;> simp [insertKV, hk, ih]

theorem lookupKV_insertKV_ne {α : Type} (l : List (String × α)) (k k' : String) (v : α)
    (hne : k ≠ k') :
    lookupKV (insertKV l k v) k' = lookupKV l k' := by
  induction l with
  | nil => simp [insertKV, hne]
  | cons h t ih =>
    obtain ⟨k₁, v₁⟩ := h
    by_cases hk : k₁ = k
    · subst hk; simp [insertKV, hne]
    · simp only [insertKV, if_neg hk, lookupKV_cons]
      by_cases hk' : k₁ = k' <;> simp [hk', ih]

theorem lookupKV_eraseKV_self {α : Type} (l : List (String × α)) (k : String) :
    lookupKV (eraseKV l k) k = none := by
  induction l with
  | nil => rfl
  | cons h t ih =>
    obtain ⟨k', v⟩ := h
    by_cases hk : k' = k <;> simp [eraseKV, hk, ih]

theorem lookupKV_eraseKV_ne {α : Type} (l : List (String × α)) (k k' : String)
    (hne : k ≠ k') :
    lookupKV (eraseKV l k) k' = lookupKV l k' := by
  induction l with
  | nil => rfl
  | cons h t ih =>
    obtain ⟨k₁, v⟩ := h
    by_cases hk : k₁ = k
    · subst hk; simp [eraseKV, hne, ih]
    · by_cases hk' : k₁ = k' <;> simp [eraseKV, hk, hk', Ne.symm hne, ih]

/-! ## `services/ai` — messages and validation (interface.go) -/

namespace Ai

/-- `ai.Message`: role, content and a string→string metadata map.
A Go `nil` map is modelled as the empty association list. -/
structure Message where
  role : String
  content : String
  metadata : List (String × String) := []
  deriving Repr, DecidableEq

/-- Outcome of `ai.Message.Validate`. -/
inductive ValErr where
  | emptyRole
  | emptyContent
  | invalidRole
  deriving Repr, DecidableEq

/-- The permitted-roles table from `Message.Validate`. -/
def validRole (r : String) : Bool :=
  r = "system" || r = "user" || r = "assistant"

/-- `ai.Message.Validate`: empty role, then empty content, then the
permitted-role table; `none` means valid. -/
def validate (m : Message) : Option ValErr :=
  if m.role = "" then some .emptyRole
  else if m.content = "" then some .emptyContent
  else if ¬ validRole m.role then some .invalidRole
  else none

end Ai

/-! ## Session cache — `services/sessionCache.go` -/

namespace SessionCache

open Ai

/-- Cache configuration constants from `sessionCache.go` (times in
seconds, sizes in bytes). -/
def DefaultExpiration : Nat := 12 * 60 * 60

def MaxSessionsPerUser : Nat := 10

def MaxTotalSessions : Int := 10000

def MaxMessageLength : Nat := 4096

def MaxMessagesPerSession : Nat := 100

def MemoryLimit : Int := 4 * 1024 * 1024 * 1024

def MemoryThresholdCleanup : Int := MemoryLimit * 9 / 10

/-- `SessionMeta` (the fields the modelled operations read or write;
`updatedAt` is a wall-clock timestamp in seconds). -/
structure SessionMeta where
  messages : List Message := []
  userId : String := ""
  updatedAt : Nat := 0
  messageNum : Nat := 0
  size : Int := 0
  cardId : String := ""
  messageId : String := ""
  conversationID : String := ""
  cacheAddress : String := ""
  deriving Repr, DecidableEq

/-- `SessionService`: the session map (`cache`), the per-user session
counter, the `(user_id, message_id)` dedup index (the `*SessionMeta`
values of the Go index only matter for `GetSessionInfo`, so the index
keeps the message-id key set per user), and the two counters. -/
structure CacheState where
  sessions : List (String × SessionMeta) := []
  userSessionCount : List (String × Int) := []
  userMessageIndex : List (String × List String) := []
  totalSessions : Int := 0
  totalMemoryUsed : Int := 0
  deriving Repr, DecidableEq

/-- `isDuplicateMessageUnsafe`: membership of `messageId` in the user's
message index. -/
def isDuplicateMessage (s : CacheState) (userId messageId : String) : Bool :=
  match lookupKV s.userMessageIndex userId with
  | some ms => ms.contains messageId
  | none => false

/-- The error kinds `SetMessages` returns, one per `fmt.Errorf` site. -/
inductive SetErr where
  | duplicateMessage
  | invalidMessage
  | messageTooLong
  | tooManyMessages
  | memoryExceeded
  | maxSessionsExceeded
  deriving Repr, DecidableEq

/-- The per-message loop body of `SetMessages`: `msg.Validate()` first,
then the `len(msg.Content) > MaxMessageLength` byte-length check. -/
def messageCheck (m : Message) : Option SetErr :=
  match validate m with
  | some _ => some .invalidMessage
  | none =>
    if m.content.utf8ByteSize > MaxMessageLength then some .messageTooLong
    else none

/-- The validation loop of `SetMessages`: first offending message wins. -/
def firstMsgErr : List Message → Option SetErr
  | [] => none
  | m :: t =>
    match messageCheck m with
    | some e => some e
    | none => firstMsgErr t

/-- Decrement a user's session count; Go deletes the key when the count
drops to zero or below. -/
def decUserCount (counts : List (String × Int)) (userId : String) :
    List (String × Int) :=
  let c := (lookupKV counts userId).getD 0 - 1
  if c ≤ 0 then eraseKV counts userId else insertKV counts userId c

/-- The index cleanup inside `Clear`: drop `messageId` from the user's
message set, dropping the user key when the set becomes empty. -/
def removeIndexEntry (idx : List (String × List String)) (userId messageId : String) :
    List (String × List String) :=
  match lookupKV idx userId with
  | none => idx
  | some ms =>
    let ms' := ms.erase messageId
    if ms' = [] then eraseKV idx userId else insertKV idx userId ms'

/-- Record `(userId, messageId)` in the dedup index.  Go stores a
`*SessionMeta` under the key; membership is unchanged when the key is
already present. -/
def addIndexEntry (idx : List (String × List String)) (userId messageId : String) :
    List (String × List String) :=
  let ms := (lookupKV idx userId).getD []
  if ms.contains messageId then idx
  else insertKV idx userId (ms ++ [messageId])

/-- `Clear`: when the session exists, roll both counters back by the
session's contribution, decrement the user's session count, drop the
session's current `MessageId` from the dedup index, and delete the
session. -/
def clear (s : CacheState) (sessionId : String) : CacheState :=
  match lookupKV s.sessions sessionId with
  | none => { s with sessions := eraseKV s.sessions sessionId }
  | some meta =>
    { sessions := eraseKV s.sessions sessionId
      userSessionCount := decUserCount s.userSessionCount meta.userId
      userMessageIndex := removeIndexEntry s.userMessageIndex meta.userId meta.messageId
      totalSessions := s.totalSessions - 1
      totalMemoryUsed := s.totalMemoryUsed - meta.size }

/-- The loop body of `ClearUserSessions`, iterating over a snapshot of
`cache.Items()`: matching sessions are deleted and both counters
decremented; the dedup index is not touched. -/
def clearUserLoop (userId : String) : CacheState → List (String × SessionMeta) →
    CacheState
  | acc, [] => acc
  | acc, (sid, meta) :: t =>
    if meta.userId = userId then
      clearUserLoop userId
        { acc with
          sessions := eraseKV acc.sessions sid
          totalSessions := acc.totalSessions - 1
          totalMemoryUsed := acc.totalMemoryUsed - meta.size } t
    else clearUserLoop userId acc t

/-- `ClearUserSessions`. -/
def clearUserSessions (s : CacheState) (userId : String) : CacheState :=
  let s' := clearUserLoop userId s s.sessions
  { s' with userSessionCount := eraseKV s'.userSessionCount userId }

/-- The loop body of `CleanExpiredSessions`: sessions whose `UpdatedAt`
is older than `now − DefaultExpiration` are deleted, decrementing both
counters and the user's session count; the dedup index is not touched.
`meta.UpdatedAt.Before(now − 12h)` is rendered without truncating
subtraction as `updatedAt + DefaultExpiration < now`. -/
def cleanExpiredLoop (now : Nat) : CacheState × Nat → List (String × SessionMeta) →
    CacheState × Nat
  | acc, [] => acc
  | (acc, count), (sid, meta) :: t =>
    if meta.updatedAt + DefaultExpiration < now then
      cleanExpiredLoop now
        ({ acc with
           sessions := eraseKV acc.sessions sid
           userSessionCount := decUserCount acc.userSessionCount meta.userId
           totalSessions := acc.totalSessions - 1
           totalMemoryUsed := acc.totalMemoryUsed - meta.size }, count + 1) t
    else cleanExpiredLoop now (acc, count) t

/-- `CleanExpiredSessions`; returns the updated state and the count of
removed sessions. -/
def cleanExpiredSessions (s : CacheState) (now : Nat) : CacheState × Nat :=
  cleanExpiredLoop now (s, 0) s.sessions

/-- `forceCleanup`: sweep expired sessions; if memory is still above
the 90 % high-water mark, sort all sessions by `UpdatedAt` ascending
and `Clear` the oldest 20 %. -/
def forceCleanup (s : CacheState) (now : Nat) : CacheState :=
  let s := (cleanExpiredSessions s now).1
  if s.totalMemoryUsed > MemoryThresholdCleanup then
    let sorted := s.sessions.mergeSort (fun a b => a.2.updatedAt ≤ b.2.updatedAt)
    let toClear := sorted.take (sorted.length / 5)
    toClear.foldl (fun acc p => clear acc p.1) s
  else s

/-- `cleanOldestUserSession`: the user's session with the smallest
`UpdatedAt` (first such in map order), cleared via `Clear`. -/
def cleanOldestUserSession (s : CacheState) (userId : String) : CacheState :=
  let oldest := s.sessions.foldl
    (fun best p =>
      if p.2.userId = userId then
        match best with
        | none => some p
        | some q => if p.2.updatedAt < q.2.updatedAt then some p else some q
      else best)
    none
  match oldest with
  | none => s
  | some p => clear s p.1

/-- `SetMessages(sessionId, userId, messages, cardId, messageId,
conversationID, cacheAddress)`.  `sizeFn` stands for
`len(json.Marshal(messages))` (the exact byte count never matters to
the control flow, only the resulting `Int`). -/
def setMessages (sizeFn : List Message → Int) (s : CacheState) (now : Nat)
    (sessionId userId : String) (messages : List Message)
    (cardId messageId conversationID cacheAddress : String) :
    Except SetErr CacheState :=
  -- 1. dedup
  if isDuplicateMessage s userId messageId then .error .duplicateMessage
  else
    -- 2. per-message validation
    match firstMsgErr messages with
    | some e => .error e
    | none =>
      -- 3. aggregate count
      if messages.length > MaxMessagesPerSession then .error .tooManyMessages
      else
        -- 4. per-user session cap
        let s :=
          if (lookupKV s.userSessionCount userId).getD 0 ≥ (MaxSessionsPerUser : Int)
          then cleanOldestUserSession s userId else s
        -- 5. memory bound with forced cleanup and re-check
        let size := sizeFn messages
        let s :=
          if s.totalMemoryUsed + size > MemoryLimit then forceCleanup s now else s
        if s.totalMemoryUsed + size > MemoryLimit then .error .memoryExceeded
        else
          match lookupKV s.sessions sessionId with
          | none =>
            -- 6. total-session bound with forced cleanup and re-check
            let s :=
              if s.totalSessions ≥ MaxTotalSessions then forceCleanup s now else s
            if s.totalSessions ≥ MaxTotalSessions then .error .maxSessionsExceeded
            else
              let meta : SessionMeta :=
                { messages := messages, userId := userId, updatedAt := now
                  messageNum := messages.length, size := size, cardId := cardId
                  messageId := messageId, conversationID := conversationID
                  cacheAddress := cacheAddress }
              .ok { sessions := insertKV s.sessions sessionId meta
                    userSessionCount :=
                      insertKV s.userSessionCount userId
                        ((lookupKV s.userSessionCount userId).getD 0 + 1)
                    userMessageIndex := addIndexEntry s.userMessageIndex userId messageId
                    totalSessions := s.totalSessions + 1
                    totalMemoryUsed := s.totalMemoryUsed + size }
          | some old =>
            -- existing session: subtract the old size, overwrite the
            -- meta fields (UserId and Mode are kept as stored)
            let meta : SessionMeta :=
              { old with messages := messages, updatedAt := now
                         messageNum := messages.length, size := size
                         cardId := cardId, messageId := messageId
                         conversationID := conversationID
                         cacheAddress := cacheAddress }
            .ok { sessions := insertKV s.sessions sessionId meta
                  userSessionCount := s.userSessionCount
                  userMessageIndex := addIndexEntry s.userMessageIndex userId messageId
                  totalSessions := s.totalSessions
                  totalMemoryUsed := s.totalMemoryUsed - old.size + size }

/-- `GetMessages`: copy of the stored history with
`metadata["session_id"] = sessionId` written into every message; empty
when the session does not exist. -/
def getMessages (s : CacheState) (sessionId : String) : List Message :=
  match lookupKV s.sessions sessionId with
  | none => []
  | some meta =>
    meta.messages.map
      (fun m => { m with metadata := insertKV m.metadata "session_id" sessionId })

end SessionCache

/-! ### Claim C5 — helper notions -/

namespace SessionCache

/-- Membership of `(userId, messageId)` in a dedup index value
(`isDuplicateMessage` on a raw index). -/
def indexHas (idx : List (String × List String)) (userId messageId : String) : Bool :=
  match lookupKV idx userId with
  | some ms => ms.contains messageId
  | none => false

/-- Total `Size` contribution of a list of sessions. -/
def sumSizes (l : List (String × SessionMeta)) : Int :=
  (l.map (fun p => p.2.size)).sum

theorem clearUserLoop_spec (userId : String) (l : List (String × SessionMeta)) :
    ∀ acc : CacheState,
      (clearUserLoop userId acc l).totalMemoryUsed =
        acc.totalMemoryUsed - sumSizes (l.filter (fun p => p.2.userId = userId)) ∧
      (clearUserLoop userId acc l).totalSessions =
        acc.totalSessions - (l.filter (fun p => p.2.userId = userId)).length ∧
      (clearUserLoop userId acc l).userMessageIndex = acc.userMessageIndex ∧
      (clearUserLoop userId acc l).userSessionCount = acc.userSessionCount := by
  induction l with
  | nil => intro acc; simp [clearUserLoop, sumSizes]
  | cons p t ih =>
    intro acc
    obtain ⟨sid, meta⟩ := p
    simp only [clearUserLoop]
    by_cases hm : meta.userId = userId
    · rw [if_pos hm]
      obtain ⟨h1, h2, h3, h4⟩ := ih
        { acc with sessions := eraseKV acc.sessions sid
                   totalSessions := acc.totalSessions - 1
                   totalMemoryUsed := acc.totalMemoryUsed - meta.size }
      refine ⟨?_, ?_, h3, h4⟩
      · rw [h1, List.filter_cons]
        simp only [hm, decide_True, if_true, sumSizes, List.map_cons,
          List.sum_cons]
        omega
      · rw [h2, List.filter_cons]
        simp only [hm, decide_True, if_true, List.length_cons]
        push_cast
        omega
    · rw [if_neg hm]
      obtain ⟨h1, h2, h3, h4⟩ := ih acc
      refine ⟨?_, ?_, h3, h4⟩
      · rw [h1, List.filter_cons]
        simp [hm]
      · rw [h2, List.filter_cons]
        simp [hm]

/-- The Bool predicate of the expiry sweep. -/
def expiredAt (now : Nat) (p : String × SessionMeta) : Bool :=
  p.2.updatedAt + DefaultExpiration < now

theorem cleanExpiredLoop_spec (now : Nat) (l : List (String × SessionMeta)) :
    ∀ (acc : CacheState) (count : Nat),
      (cleanExpiredLoop now (acc, count) l).1.totalMemoryUsed =
        acc.totalMemoryUsed - sumSizes (l.filter (expiredAt now)) ∧
      (cleanExpiredLoop now (acc, count) l).1.totalSessions =
        acc.totalSessions - (l.filter (expiredAt now)).length ∧
      (cleanExpiredLoop now (acc, count) l).1.userMessageIndex =
        acc.userMessageIndex := by
  induction l with
  | nil => intro acc count; simp [cleanExpiredLoop, sumSizes]
  | cons p t ih =>
    intro acc count
    obtain ⟨sid, meta⟩ := p
    simp only [cleanExpiredLoop]
    by_cases hm : meta.updatedAt + DefaultExpiration < now
    · rw [if_pos hm]
      obtain ⟨h1, h2, h3⟩ := ih
        { acc with sessions := eraseKV acc.sessions sid
                   userSessionCount := decUserCount acc.userSessionCount meta.userId
                   totalSessions := acc.totalSessions - 1
                   totalMemoryUsed := acc.totalMemoryUsed - meta.size } (count + 1)
      refine ⟨?_, ?_, h3⟩
      · rw [h1, List.filter_cons]
        simp only [expiredAt, hm, decide_True, if_true, sumSizes,
          List.map_cons, List.sum_cons]
        omega
      · rw [h2, List.filter_cons]
        simp only [expiredAt, hm, decide_True, if_true, List.length_cons]
        push_cast
        omega
    · rw [if_neg hm]
      obtain ⟨h1, h2, h3⟩ := ih acc count
      refine ⟨?_, ?_, h3⟩
      · rw [h1, List.filter_cons]
        simp [expiredAt, hm]
      · rw [h2, List.filter_cons]
        simp [expiredAt, hm]

theorem indexHas_removeIndexEntry_self (idx : List (String × List String))
    (uid mid : String) (h : ((lookupKV idx uid).getD []).Nodup) :
    indexHas (removeIndexEntry idx uid mid) uid mid = false := by
  cases hidx : lookupKV idx uid with
  | none => simp [removeIndexEntry, hidx, indexHas]
  | some ms =>
    rw [hidx] at h
    by_cases hms : ms.erase mid = []
    · simp [removeIndexEntry, hidx, hms, indexHas, lookupKV_eraseKV_self]
    · simp only [removeIndexEntry, hidx, hms, if_false, reduceIte, indexHas,
        lookupKV_insertKV_self]
      simp only [List.contains_eq_any_beq, List.any_eq_false, beq_iff_eq]
      intro x hx hxe
      subst hxe
      exact ((h.mem_erase_iff.1 hx).1 rfl).elim

theorem indexHas_removeIndexEntry_ne (idx : List (String × List String))
    (uid mid mid' : String) (hne : mid' ≠ mid) :
    indexHas (removeIndexEntry idx uid mid) uid mid' = indexHas idx uid mid' := by
  cases hidx : lookupKV idx uid with
  | none => simp [removeIndexEntry, hidx]
  | some ms =>
    by_cases hms : ms.erase mid = []
    · simp only [removeIndexEntry, hidx, hms, if_true, reduceIte, indexHas,
        lookupKV_eraseKV_self]
      have hall : ∀ x ∈ ms, x = mid := by
        intro x hx
        by_contra hxne
        have hmem : x ∈ ms.erase mid := (List.mem_erase_of_ne hxne).2 hx
        simp [hms] at hmem
      symm
      simp only [List.contains_eq_any_beq, List.any_eq_false, beq_iff_eq]
      intro x hx hxe
      exact hne (hxe.trans (hall x hx))
    · simp only [removeIndexEntry, hidx, hms, if_false, reduceIte, indexHas,
        lookupKV_insertKV_self]
      rw [Bool.eq_iff_iff]
      simp only [List.contains_eq_any_beq, List.any_eq_true, beq_iff_eq]
      constructor
      · rintro ⟨x, hx, rfl⟩
        exact ⟨mid', (List.mem_erase_of_ne hne).1 hx, rfl⟩
      · rintro ⟨x, hx, rfl⟩
        exact ⟨mid', (List.mem_erase_of_ne hne).2 hx, rfl⟩

theorem lookup_removeIndexEntry_ne_user (idx : List (String × List String))
    (uid uid' mid : String) (hne : uid' ≠ uid) :
    lookupKV (removeIndexEntry idx uid mid) uid' = lookupKV idx uid' := by
  cases hidx : lookupKV idx uid with
  | none => simp [removeIndexEntry, hidx]
  | some ms =>
    by_cases hms : ms.erase mid = []
    · simp [removeIndexEntry, hidx, hms, lookupKV_eraseKV_ne _ _ _ (Ne.symm hne)]
    · simp [removeIndexEntry, hidx, hms, lookupKV_insertKV_ne _ _ _ _ (Ne.symm hne)]

end SessionCache

/-! ### Claim C5 -/

open SessionCache in
/-- C5 counterexample: the claim states that every session-removing
operation also purges the session's `(user_id, message_id)` entries
from the user message index.  `CleanExpiredSessions` removes the
expired session `"S1"` and decrements both counters, but leaves the
index entry `("U1", "M1")` in place — `isDuplicateMessage` still
reports a duplicate. -/
theorem C5_removal_purges_index_counterexample :
    (cleanExpiredSessions
        { sessions :=
            [("S1", { userId := "U1", updatedAt := 0, size := 10,
                      messageId := "M1" })]
          userSessionCount := [("U1", 1)]
          userMessageIndex := [("U1", ["M1"])]
          totalSessions := 1, totalMemoryUsed := 10 } 100000).1.totalSessions = 0 ∧
    (cleanExpiredSessions
        { sessions :=
            [("S1", { userId := "U1", updatedAt := 0, size := 10,
                      messageId := "M1" })]
          userSessionCount := [("U1", 1)]
          userMessageIndex := [("U1", ["M1"])]
          totalSessions := 1, totalMemoryUsed := 10 } 100000).1.totalMemoryUsed = 0 ∧
    lookupKV (cleanExpiredSessions
        { sessions :=
            [("S1", { userId := "U1", updatedAt := 0, size := 10,
                      messageId := "M1" })]
          userSessionCount := [("U1", 1)]
          userMessageIndex := [("U1", ["M1"])]
          totalSessions := 1, totalMemoryUsed := 10 } 100000).1.sessions "S1" = none ∧
    isDuplicateMessage (cleanExpiredSessions
        { sessions :=
            [("S1", { userId := "U1", updatedAt := 0, size := 10,
                      messageId := "M1" })]
          userSessionCount := [("U1", 1)]
          userMessageIndex := [("U1", ["M1"])]
          totalSessions := 1, totalMemoryUsed := 10 } 100000).1 "U1" "M1" = true := by
  decide

open SessionCache in
/-- C5 (amended): `Clear` — and hence forced-cleanup eviction, which
removes sessions through `Clear` — decrements both counters by the
removed session's contribution and removes that session's *current*
`message_id` from the user message index (leaving other entries
intact); `ClearUserSessions` and `CleanExpiredSessions` decrement both
counters by every removed session's contribution but do not purge any
user message index entries. -/
theorem C5_removal_counters_and_index :
    (∀ (s : CacheState) (sid : String) (meta : SessionMeta),
      lookupKV s.sessions sid = some meta →
      ((lookupKV s.userMessageIndex meta.userId).getD []).Nodup →
      (clear s sid).totalSessions = s.totalSessions - 1 ∧
      (clear s sid).totalMemoryUsed = s.totalMemoryUsed - meta.size ∧
      lookupKV (clear s sid).sessions sid = none ∧
      indexHas (clear s sid).userMessageIndex meta.userId meta.messageId = false ∧
      (∀ mid', mid' ≠ meta.messageId →
        indexHas (clear s sid).userMessageIndex meta.userId mid' =
          indexHas s.userMessageIndex meta.userId mid') ∧
      (∀ uid', uid' ≠ meta.userId →
        lookupKV (clear s sid).userMessageIndex uid' =
          lookupKV s.userMessageIndex uid')) ∧
    (∀ (s : CacheState) (uid : String),
      (clearUserSessions s uid).userMessageIndex = s.userMessageIndex ∧
      (clearUserSessions s uid).totalMemoryUsed =
        s.totalMemoryUsed - sumSizes (s.sessions.filter (fun p => p.2.userId = uid)) ∧
      (clearUserSessions s uid).totalSessions =
        s.totalSessions - (s.sessions.filter (fun p => p.2.userId = uid)).length) ∧
    (∀ (s : CacheState) (now : Nat),
      (cleanExpiredSessions s now).1.userMessageIndex = s.userMessageIndex ∧
      (cleanExpiredSessions s now).1.totalMemoryUsed =
        s.totalMemoryUsed - sumSizes (s.sessions.filter (expiredAt now)) ∧
      (cleanExpiredSessions s now).1.totalSessions =
        s.totalSessions - (s.sessions.filter (expiredAt now)).length) := by
  refine ⟨?_, ?_, ?_⟩
  · intro s sid meta hlook hnodup
    unfold clear
    rw [hlook]
    exact ⟨rfl, rfl, lookupKV_eraseKV_self _ _,
           indexHas_removeIndexEntry_self _ _ _ hnodup,
           fun mid' hne => indexHas_removeIndexEntry_ne _ _ _ _ hne,
           fun uid' hne => lookup_removeIndexEntry_ne_user _ _ _ _ hne⟩
  · intro s uid
    obtain ⟨h1, h2, h3, _⟩ := clearUserLoop_spec uid s.sessions s
    exact ⟨by simpa [clearUserSessions] using h3,
           by simpa [clearUserSessions] using h1,
           by simpa [clearUserSessions] using h2⟩
  · intro s now
    obtain ⟨h1, h2, h3⟩ := cleanExpiredLoop_spec now s.sessions s 0
    exact ⟨h3, h1, h2⟩

open SessionCache in
/-- Witness for `C5_removal_counters_and_index` at a one-session cache:
`Clear` rolls back both counters and the dedup entry, while
`CleanExpiredSessions` on the same cache leaves the index untouched. -/
theorem C5_removal_counters_and_index_witness :
    ((clear
        { sessions :=
            [("S1", { userId := "U1", updatedAt := 0, size := 10,
                      messageId := "M1" })]
          userSessionCount := [("U1", 1)]
          userMessageIndex := [("U1", ["M1"])]
          totalSessions := 1, totalMemoryUsed := 10 } "S1").totalSessions = 1 - 1 ∧
     (clear
        { sessions :=
            [("S1", { userId := "U1", updatedAt := 0, size := 10,
                      messageId := "M1" })]
          userSessionCount := [("U1", 1)]
          userMessageIndex := [("U1", ["M1"])]
          totalSessions := 1, totalMemoryUsed := 10 } "S1").totalMemoryUsed = 10 - 10 ∧
     lookupKV (clear
        { sessions :=
            [("S1", { userId := "U1", updatedAt := 0, size := 10,
                      messageId := "M1" })]
          userSessionCount := [("U1", 1)]
          userMessageIndex := [("U1", ["M1"])]
          totalSessions := 1, totalMemoryUsed := 10 } "S1").sessions "S1" = none ∧
     indexHas (clear
        { sessions :=
            [("S1", { userId := "U1", updatedAt := 0, size := 10,
                      messageId := "M1" })]
          userSessionCount := [("U1", 1)]
          userMessageIndex := [("U1", ["M1"])]
          totalSessions := 1, totalMemoryUsed := 10 } "S1").userMessageIndex
        "U1" "M1" = false) ∧
    (cleanExpiredSessions
        { sessions :=
            [("S1", { userId := "U1", updatedAt := 0, size := 10,
                      messageId := "M1" })]
          userSessionCount := [("U1", 1)]
          userMessageIndex := [("U1", ["M1"])]
          totalSessions := 1, totalMemoryUsed := 10 } 100000).1.userMessageIndex =
      [("U1", ["M1"])] := by
  have hA := (C5_removal_counters_and_index.1
    { sessions :=
        [("S1", { userId := "U1", updatedAt := 0, size := 10, messageId := "M1" })]
      userSessionCount := [("U1", 1)]
      userMessageIndex := [("U1", ["M1"])]
      totalSessions := 1, totalMemoryUsed := 10 } "S1"
    { userId := "U1", updatedAt := 0, size := 10, messageId := "M1" }
    (by decide) (by decide))
  have hC := (C5_removal_counters_and_index.2.2
    { sessions :=
        [("S1", { userId := "U1", updatedAt := 0, size := 10, messageId := "M1" })]
      userSessionCount := [("U1", 1)]
      userMessageIndex := [("U1", ["M1"])]
      totalSessions := 1, totalMemoryUsed := 10 } 100000)
  exact ⟨⟨hA.1, hA.2.1, hA.2.2.1, hA.2.2.2.1⟩, hC.1⟩

/-! ### Claim C1 -/

/-- UTF-8 length of a run of `n` ASCII `a`s, for the 4096-byte boundary
instances. -/
theorem utf8Go_replicate_a (n : Nat) :
    String.utf8ByteSize.go (List.replicate n 'a') = n := by
  induction n with
  | zero => rfl
  | succ n ih =>
    rw [List.replicate_succ]
    show String.utf8ByteSize.go (List.replicate n 'a') + 'a'.utf8Size = n + 1
    rw [ih, show 'a'.utf8Size = 1 from rfl]

theorem utf8_replicate_a (n : Nat) :
    (String.mk (List.replicate n 'a')).utf8ByteSize = n :=
  utf8Go_replicate_a n

open SessionCache Ai in
/-- C1: the precondition checks of `SetMessages` run in order, each
failure with its own error: a duplicate `(user_id, inbound_msg_id)`
returns `duplicate_message` before any validation; otherwise the first
message failing validation or the 4096-byte length bound returns
`invalid_message` / `message_too_long`; otherwise more than 100
messages returns `too_many_messages`; and a list of at most 100 valid
messages (role permitted, content non-empty and at most 4096 bytes,
4096 accepted / 4097 rejected) passes all three checks. -/
theorem C1_setMessages_precondition_checks (sizeFn : List Message → Int) :
    (∀ (s : CacheState) (now : Nat) (sid uid : String) (msgs : List Message)
        (cid mid conv addr : String),
      isDuplicateMessage s uid mid = true →
      setMessages sizeFn s now sid uid msgs cid mid conv addr =
        .error .duplicateMessage) ∧
    (∀ (s : CacheState) (now : Nat) (sid uid : String) (msgs : List Message)
        (cid mid conv addr : String) (e : SetErr),
      isDuplicateMessage s uid mid = false → firstMsgErr msgs = some e →
      setMessages sizeFn s now sid uid msgs cid mid conv addr = .error e) ∧
    (∀ (s : CacheState) (now : Nat) (sid uid : String) (msgs : List Message)
        (cid mid conv addr : String),
      isDuplicateMessage s uid mid = false → firstMsgErr msgs = none →
      msgs.length > 100 →
      setMessages sizeFn s now sid uid msgs cid mid conv addr =
        .error .tooManyMessages) ∧
    (∀ (s : CacheState) (now : Nat) (sid uid : String) (msgs : List Message)
        (cid mid conv addr : String),
      isDuplicateMessage s uid mid = false → firstMsgErr msgs = none →
      msgs.length ≤ 100 →
      ∀ e ∈ [SetErr.duplicateMessage, .invalidMessage, .messageTooLong,
             .tooManyMessages],
        setMessages sizeFn s now sid uid msgs cid mid conv addr ≠ .error e) ∧
    (∀ msgs : List Message,
      (∀ m ∈ msgs, validate m = none ∧ m.content.utf8ByteSize ≤ 4096) ↔
        firstMsgErr msgs = none) ∧
    (∀ m : Message, validate m = none →
      (m.content.utf8ByteSize = 4096 → messageCheck m = none) ∧
      (m.content.utf8ByteSize = 4097 → messageCheck m = some .messageTooLong)) := by
  refine ⟨?_, ?_, ?_, ?_, ?_, ?_⟩
  · intro s now sid uid msgs cid mid conv addr hdup
    simp [setMessages, hdup]
  · intro s now sid uid msgs cid mid conv addr e hdup hval
    simp [setMessages, hdup, hval]
  · intro s now sid uid msgs cid mid conv addr hdup hval hlen
    simp only [setMessages, hdup, Bool.false_eq_true, if_false, hval]
    rw [if_pos (by simpa [MaxMessagesPerSession] using hlen)]
  · intro s now sid uid msgs cid mid conv addr hdup hval hlen e he
    simp only [setMessages, hdup, Bool.false_eq_true, if_false, hval]
    rw [if_neg (by simp [MaxMessagesPerSession]; omega)]
    fin_cases he <;> (repeat' split) <;> simp
  · intro msgs
    induction msgs with
    | nil => simp [firstMsgErr]
    | cons m t ih =>
      constructor
      · intro h
        have hm := h m (by simp)
        have hcheck : messageCheck m = none := by
          simp [messageCheck, hm.1, MaxMessageLength]
          omega
        simp only [firstMsgErr, hcheck]
        exact ih.1 (fun x hx => h x (by simp [hx]))
      · intro h x hx
        rcases List.mem_cons.1 hx with rfl | hx'
        · by_cases hv : validate x = none
          · refine ⟨hv, ?_⟩
            by_contra hlen
            have hc : messageCheck x = some .messageTooLong := by
              simp [messageCheck, hv, MaxMessageLength]
              omega
            simp [firstMsgErr, hc] at h
          · exfalso
            obtain ⟨e, he⟩ := Option.ne_none_iff_exists'.mp hv
            simp [firstMsgErr, messageCheck, he] at h
        · refine ih.2 ?_ x hx'
          cases hc : messageCheck m with
          | none => simpa [firstMsgErr, hc] using h
          | some e => simp [firstMsgErr, hc] at h
  · intro m hv
    constructor
    · intro h; simp [messageCheck, hv, h, MaxMessageLength]
    · intro h; simp [messageCheck, hv, h, MaxMessageLength]

open SessionCache Ai in
/-- Witness for `C1_setMessages_precondition_checks`: on an empty cache
with `sizeFn ≡ 0`, a duplicate is rejected first; an empty-content
message gives `invalid_message`; a 4097-byte content gives
`message_too_long`; 101 valid messages give `too_many_messages`; 100
messages of exactly 4096 bytes pass all three checks. -/
theorem C1_setMessages_precondition_checks_witness :
    (setMessages (fun _ => 0)
        { userMessageIndex := [("U", ["M"])] } 0 "S" "U"
        [{ role := "user", content := "hi" }] "" "M" "" "" =
      .error .duplicateMessage) ∧
    (setMessages (fun _ => 0) {} 0 "S" "U"
        [{ role := "user", content := "" }] "" "M" "" "" =
      .error .invalidMessage) ∧
    (setMessages (fun _ => 0) {} 0 "S" "U"
        [{ role := "user", content := String.mk (List.replicate 4097 'a') }]
        "" "M" "" "" =
      .error .messageTooLong) ∧
    (setMessages (fun _ => 0) {} 0 "S" "U"
        (List.replicate 101 { role := "user", content := "hi" }) "" "M" "" "" =
      .error .tooManyMessages) ∧
    (∀ e ∈ [SetErr.duplicateMessage, .invalidMessage, .messageTooLong,
            .tooManyMessages],
      setMessages (fun _ => 0) {} 0 "S" "U"
        (List.replicate 100
          { role := "user", content := String.mk (List.replicate 4096 'a') })
        "" "M" "" "" ≠ .error e) := by
  refine ⟨?_, ?_, ?_, ?_, ?_⟩
  · exact (C1_setMessages_precondition_checks (fun _ => 0)).1 _ 0 "S" "U" _ "" "M" "" ""
      rfl
  · exact (C1_setMessages_precondition_checks (fun _ => 0)).2.1 _ 0 "S" "U" _ "" "M" ""
      "" _ rfl rfl
  · refine (C1_setMessages_precondition_checks (fun _ => 0)).2.1 _ 0 "S" "U" _ "" "M" ""
      "" _ rfl ?_
    have h4097 := (C1_setMessages_precondition_checks (fun _ => 0)).2.2.2.2.2
      { role := "user", content := String.mk (List.replicate 4097 'a') }
      (by rfl)
    simp only [firstMsgErr, h4097.2 (utf8_replicate_a 4097)]
  · exact (C1_setMessages_precondition_checks (fun _ => 0)).2.2.1 _ 0 "S" "U" _ "" "M" ""
      "" rfl (by rfl) (by simp)
  · refine (C1_setMessages_precondition_checks (fun _ => 0)).2.2.2.1 _ 0 "S" "U" _ "" "M"
      "" "" rfl ?_ (by simp)
    refine ((C1_setMessages_precondition_checks (fun _ => 0)).2.2.2.2.1 _).1 ?_
    intro m hm
    rw [List.eq_of_mem_replicate hm]
    exact ⟨rfl, le_of_eq (utf8_replicate_a 4096)⟩

/-! ### Claim C8 -/

namespace SessionCache

theorem getMessages_lookup_some (s : CacheState) (sid : String) (meta : SessionMeta)
    (h : lookupKV s.sessions sid = some meta) :
    getMessages s sid =
      meta.messages.map
        (fun m => { m with metadata := insertKV m.metadata "session_id" sid }) := by
  unfold getMessages
  rw [h]

theorem getMessages_mk_insert (sess : List (String × SessionMeta))
    (usc : List (String × Int)) (umi : List (String × List String)) (ts tm : Int)
    (sid : String) (meta : SessionMeta) :
    getMessages ⟨insertKV sess sid meta, usc, umi, ts, tm⟩ sid =
      meta.messages.map
        (fun m => { m with metadata := insertKV m.metadata "session_id" sid }) :=
  getMessages_lookup_some _ _ _ (lookupKV_insertKV_self sess sid meta)

end SessionCache

open SessionCache Ai in
/-- C8: a message list accepted by `SetMessages` is returned by a
subsequent `GetMessages(session_id)` unchanged except that every
returned message's metadata carries `session_id = <session_id>`; for a
session id not in the cache `GetMessages` returns the empty sequence. -/
theorem C8_set_then_get_roundtrip :
    (∀ (sizeFn : List Message → Int) (s : CacheState) (now : Nat) (sid uid : String)
        (msgs : List Message) (cid mid conv addr : String) (s' : CacheState),
      setMessages sizeFn s now sid uid msgs cid mid conv addr = .ok s' →
      getMessages s' sid =
        msgs.map (fun m =>
          { m with metadata := insertKV m.metadata "session_id" sid })) ∧
    (∀ (s : CacheState) (sid : String),
      lookupKV s.sessions sid = none → getMessages s sid = []) := by
  constructor
  · intro sizeFn s now sid uid msgs cid mid conv addr s' h
    simp only [setMessages] at h
    repeat' split at h
    all_goals cases h
    all_goals exact getMessages_mk_insert _ _ _ _ _ _ _
  · intro s sid h
    simp [getMessages, h]

open SessionCache Ai in
/-- Witness for `C8_set_then_get_roundtrip`: storing one user message
under session `"S"` and reading it back yields the message with
`session_id = "S"` added to its metadata; reading an unknown session
from the empty cache yields `[]`. -/
theorem C8_set_then_get_roundtrip_witness :
    getMessages
      { sessions :=
          [("S", { messages := [{ role := "user", content := "hello" }]
                   userId := "U", updatedAt := 5, messageNum := 1, size := 0
                   cardId := "C", messageId := "M", conversationID := "V"
                   cacheAddress := "A" })]
        userSessionCount := [("U", 1)]
        userMessageIndex := [("U", ["M"])]
        totalSessions := 1, totalMemoryUsed := 0 } "S" =
      ([{ role := "user", content := "hello" }] : List Message).map
        (fun m => { m with metadata := insertKV m.metadata "session_id" "S" }) ∧
    getMessages ({} : CacheState) "S" = [] :=
  ⟨C8_set_then_get_roundtrip.1 (fun _ => 0) {} 5 "S" "U"
      [{ role := "user", content := "hello" }] "C" "M" "V" "A" _ (by rfl),
   C8_set_then_get_roundtrip.2 {} "S" rfl⟩

/-! ## Streaming adapter — `services/ai/dify/dify.go` -/

namespace Dify

open Ai

/-- `ai.ErrorCode`. -/
inductive ErrCode where
  | invalidConfig
  | providerNotFound
  | connectionFailed
  | timeout
  | invalidResponse
  | rateLimited
  | invalidMessage
  deriving Repr, DecidableEq

/-- `ai.Error.IsTemporary`. -/
def ErrCode.isTemporary : ErrCode → Bool
  | .connectionFailed | .timeout | .rateLimited => true
  | _ => false

/-- `ai.Error` (code plus the `Error()` text, which includes any
wrapped cause such as an HTTP response body). -/
structure ErrM where
  code : ErrCode
  message : String
  deriving Repr, DecidableEq

/-- Character-list prefix test (`l₁` starts `l₂`). -/
def isPre : List Char → List Char → Bool
  | [], _ => true
  | _ :: _, [] => false
  | a :: t1, b :: t2 => a = b && isPre t1 t2

/-- Substring occurrence of `needle` in a character list. -/
def hasSub (needle : List Char) : List Char → Bool
  | [] => isPre needle []
  | c :: t => isPre needle (c :: t) || hasSub needle t

/-- Go `strings.Contains(haystack, needle)`. -/
def strContains (haystack needle : String) : Bool :=
  hasSub needle.data haystack.data

/-- The parsed `streamResponse` JSON structure; absent JSON fields are
the empty string, as with Go `json.Unmarshal` into string fields. -/
structure StreamResp where
  event : String := ""
  thought : String := ""
  conversationId : String := ""
  answer : String := ""
  dataText : String := ""
  dataAnswer : String := ""
  dataMessage : String := ""
  dataErrorCode : String := ""
  dataError : String := ""
  dataConversationId : String := ""
  deriving Repr, DecidableEq

/-- One complete SSE line as seen by `processSSELine`. -/
inductive SSELine where
  /-- no `data: ` prefix (comment or heartbeat text) -/
  | notData
  /-- unparseable JSON whose text contains `[DONE]` -/
  | doneSentinel
  /-- unparseable JSON without `[DONE]` -/
  | malformed
  /-- `data: <json>` parsed into a `streamResponse` -/
  | parsed (r : StreamResp)
  deriving Repr, DecidableEq

/-- A line together with the wall-clock instant (ms) at which it is
processed and whether the outbound channel would accept a non-blocking
send at that instant. -/
structure LineIn where
  line : SSELine
  now : Nat := 0
  free : Bool := true
  deriving Repr, DecidableEq

/-- The mutable `DifyProvider` state a single `StreamChat` call touches:
the per-user conversation cache (timestamps only feed the background
sweeper, so only the id is kept), the per-call dedup set `sentContent`,
the emit buffer and its `lastSendTime`, and the ordered list of strings
sent on the outbound channel. -/
structure DifyState where
  conversations : List (String × String) := []
  sentContent : List String := []
  buffer : String := ""
  lastSendTime : Nat := 0
  emitted : List String := []
  deriving Repr, DecidableEq

/-- `addToBufferAndSend`: append to the buffer; if at least 20 ms have
passed since the last send, try a non-blocking send of the whole
buffer — success clears the buffer and updates `lastSendTime`, a
blocked channel returns the `invalid_response` "response stream is
blocked" error. -/
def addToBufferAndSend (content : String) (now : Nat) (free : Bool)
    (st : DifyState) : DifyState × Option ErrM :=
  let buf := if st.buffer = "" then content else st.buffer ++ content
  if now - st.lastSendTime ≥ 20 then
    if buf ≠ "" then
      if free then
        ({ st with buffer := "", lastSendTime := now,
                   emitted := st.emitted ++ [buf] }, none)
      else
        ({ st with buffer := buf },
         some ⟨.invalidResponse, "response stream is blocked"⟩)
    else ({ st with buffer := buf }, none)
  else ({ st with buffer := buf }, none)

/-- The content-extraction rule of the `message`/`agent_message` case:
top-level `answer` for a non-empty `agent_message`, else `data.text`,
else `data.answer`, else `data.message`. -/
def extractContent (r : StreamResp) : String :=
  if r.event = "agent_message" ∧ r.answer ≠ "" then r.answer
  else if r.dataText ≠ "" then r.dataText
  else if r.dataAnswer ≠ "" then r.dataAnswer
  else r.dataMessage

/-- The conversation id an event carries: the top-level
`conversation_id` when non-empty, else `data.conversation_id`. -/
def convIdOf (r : StreamResp) : String :=
  if r.conversationId ≠ "" then r.conversationId else r.dataConversationId

/-- The conversation-id storage step run for every parsed event:
a non-empty carried conversation id is stored for the user. -/
def storeConv (userID : String) (r : StreamResp) (st : DifyState) : DifyState :=
  if userID ≠ "" then
    if convIdOf r ≠ "" then
      { st with conversations := insertKV st.conversations userID (convIdOf r) }
    else st
  else st

/-- `processSSELine` on one complete line. -/
def processSSELine (userID : String) (st : DifyState) (l : SSELine) (now : Nat)
    (free : Bool) : DifyState × Option ErrM :=
  match l with
  | .notData => (st, none)
  | .doneSentinel => (st, none)
  | .malformed => (st, some ⟨.invalidResponse, "error unmarshaling response"⟩)
  | .parsed r =>
    let st := storeConv userID r st
    if r.event = "message" ∨ r.event = "agent_message" then
      let content := extractContent r
      if content.length > 0 then
        if st.sentContent.contains content then (st, none)
        else
          addToBufferAndSend content now free
            { st with sentContent := st.sentContent ++ [content] }
      else (st, none)
    else if r.event = "agent_thought" then
      -- thoughts bypass the emit buffer: a direct non-blocking send
      if r.thought ≠ "" then
        if st.sentContent.contains r.thought then (st, none)
        else
          if free then
            ({ st with sentContent := st.sentContent ++ [r.thought]
                       emitted := st.emitted ++ [r.thought] }, none)
          else
            ({ st with sentContent := st.sentContent ++ [r.thought] },
             some ⟨.invalidResponse, "response stream is blocked"⟩)
      else (st, none)
    else if r.event = "error" then
      (st,
       some (if r.dataErrorCode ≠ "" then
               ⟨.invalidResponse,
                "stream error: [" ++ r.dataErrorCode ++ "] " ++ r.dataError⟩
             else ⟨.invalidResponse, "stream error: " ++ r.dataText⟩))
    else
      -- "done" / "message_end" / "ping" / unknown: return nil, keep reading
      (st, none)

/-- The line-reading loop of `doStreamRequest`: process complete lines
until an error or EOF (end of the list). -/
def runLines (userID : String) (st : DifyState) :
    List LineIn → DifyState × Option ErrM
  | [] => (st, none)
  | li :: t =>
    match processSSELine userID st li.line li.now li.free with
    | (st', none) => runLines userID st' t
    | (st', some e) => (st', some e)

/-- One upstream HTTP exchange as `doStreamRequest` can observe it. -/
inductive Script where
  /-- `httpClient.Do` fails (deadline exceeded or transport error) -/
  | httpErr (isTimeout : Bool)
  /-- non-200 status with a response body -/
  | badStatus (status : Nat) (body : String)
  /-- 200 OK followed by these SSE lines, then EOF -/
  | stream (lines : List LineIn)
  deriving Repr, DecidableEq

/-- `doStreamRequest` for a given exchange. -/
def doStreamRequest (userID : String) (st : DifyState) :
    Script → DifyState × Option ErrM
  | .httpErr isTimeout =>
    (st, some (if isTimeout then ⟨.timeout, "request timeout"⟩
               else ⟨.connectionFailed, "error sending request"⟩))
  | .badStatus status body =>
    (st, some ⟨.invalidResponse,
               "unexpected status code: " ++ toString status ++ ", body: " ++ body⟩)
  | .stream lines => runLines userID st lines

/-- `validateMessages`: non-empty list, every message `Validate`s. -/
def validateMessages : List Message → Option ErrM
  | [] => some ⟨.invalidMessage, "messages cannot be empty"⟩
  | messages =>
    if messages.all (fun m => validate m = none) then none
    else some ⟨.invalidMessage, "invalid message"⟩

/-- User-id extraction from the last message's metadata, defaulting to
`"feishu-bot"` when the key is absent or empty. -/
def extractUserID (messages : List Message) : String :=
  match messages.getLast? with
  | none => "feishu-bot"
  | some last =>
    let id := (lookupKV last.metadata "user_id").getD ""
    if id ≠ "" then id else "feishu-bot"

/-- Result of a `StreamChat` call: the returned error (if any), the
final provider state, and the `conversation_id` field of each request
issued upstream, in issue order. -/
structure ChatResult where
  result : Option ErrM
  state : DifyState
  issued : List String
  deriving Repr, DecidableEq

/-- The next exchange for an issued request; an exhausted script list
behaves as a connection failure (a modelling convention — theorems
always supply enough scripts). -/
def nextScript : List Script → Script × List Script
  | [] => (.httpErr false, [])
  | s :: t => (s, t)

/-- The retry loop of `StreamChat` (`for retry := 0; retry <= MaxRetries`):
each iteration issues the request; on an error whose text contains
`"Conversation Not Exists"` the request-body `conversation_id` is
emptied and the request reissued once immediately; permanent errors
return at once, temporary ones consume a retry. -/
def retryLoop (userID : String) : Nat → DifyState → String → List Script →
    List String → ChatResult
  | 0, st, _, _, issued =>
    ⟨some ⟨.connectionFailed, "max retries exceeded"⟩, st, issued⟩
  | fuel + 1, st, convId, scripts, issued =>
    let (sc, scripts') := nextScript scripts
    let (st1, err?) := doStreamRequest userID st sc
    let issued1 := issued ++ [convId]
    match err? with
    | none => ⟨none, st1, issued1⟩
    | some e =>
      if strContains e.message "Conversation Not Exists" then
        let (sc2, scripts2) := nextScript scripts'
        let (st2, err2?) := doStreamRequest userID st1 sc2
        let issued2 := issued1 ++ [""]
        match err2? with
        | none => ⟨none, st2, issued2⟩
        | some e2 =>
          if e2.code.isTemporary then retryLoop userID fuel st2 "" scripts2 issued2
          else ⟨some e2, st2, issued2⟩
      else
        if e.code.isTemporary then retryLoop userID fuel st1 convId scripts' issued1
        else ⟨some e, st1, issued1⟩

/-- `StreamChat`: clear the per-call dedup set, validate, read the
cached conversation id for the user, then drive the retry loop with
`maxRetries + 1` iterations. -/
def streamChat (maxRetries : Nat) (st0 : DifyState) (messages : List Message)
    (scripts : List Script) : ChatResult :=
  let st := { st0 with sentContent := [] }
  match validateMessages messages with
  | some e => ⟨some e, st, []⟩
  | none =>
    let userID := extractUserID messages
    let convId := (lookupKV st.conversations userID).getD ""
    retryLoop userID (maxRetries + 1) st convId scripts []

/-- The spec-side comparison stream for C2: the contents extracted from
`message`/`agent_message` events, in upstream order, with duplicate
fragments suppressed. -/
def dedupLoop (seen : List String) : List LineIn → List String
  | [] => []
  | li :: t =>
    match li.line with
    | .parsed r =>
      if r.event = "message" ∨ r.event = "agent_message" then
        let content := extractContent r
        if content.length > 0 ∧ ¬ seen.contains content then
          content :: dedupLoop (seen ++ [content]) t
        else dedupLoop seen t
      else dedupLoop seen t
    | _ => dedupLoop seen t

/-- Whether a line is an `agent_thought` event. -/
def lineIsThought (li : LineIn) : Bool :=
  match li.line with
  | .parsed r => r.event = "agent_thought"
  | _ => false

/-- Concatenation of the strings sent on the channel. -/
def joinAll : List String → String
  | [] => ""
  | s :: t => s ++ joinAll t

@[simp] theorem joinAll_nil : joinAll [] = "" := rfl

@[simp] theorem joinAll_cons (s : String) (t : List String) :
    joinAll (s :: t) = s ++ joinAll t := rfl

theorem joinAll_append (a b : List String) :
    joinAll (a ++ b) = joinAll a ++ joinAll b := by
  induction a with
  | nil => simp
  | cons s t ih => simp [ih, String.append_assoc]

@[simp] theorem storeConv_sentContent (u : String) (r : StreamResp) (st : DifyState) :
    (storeConv u r st).sentContent = st.sentContent := by
  unfold storeConv; split_ifs <;> rfl

@[simp] theorem storeConv_buffer (u : String) (r : StreamResp) (st : DifyState) :
    (storeConv u r st).buffer = st.buffer := by
  unfold storeConv; split_ifs <;> rfl

@[simp] theorem storeConv_emitted (u : String) (r : StreamResp) (st : DifyState) :
    (storeConv u r st).emitted = st.emitted := by
  unfold storeConv; split_ifs <;> rfl

@[simp] theorem storeConv_lastSendTime (u : String) (r : StreamResp) (st : DifyState) :
    (storeConv u r st).lastSendTime = st.lastSendTime := by
  unfold storeConv; split_ifs <;> rfl

theorem append_ne_empty_of_right (a b : String) (h : b ≠ "") : a ++ b ≠ "" := by
  intro hab
  apply h
  have hd := congrArg String.data hab
  simp only [String.data_append] at hd
  exact String.ext (List.append_eq_nil.1 hd).2

theorem buf_append (buffer content : String) :
    (if buffer = "" then content else buffer ++ content) = buffer ++ content := by
  split
  · simp [*]
  · rfl

/-- The three outcomes of `addToBufferAndSend` for non-empty content:
a due emit on a free channel sends the whole buffer and resets it; a
due emit on a blocked channel returns the `invalid_response` error
with the buffer retained; an emit not yet due only accumulates. -/
theorem addToBufferAndSend_cases (content : String) (now : Nat) (free : Bool)
    (st : DifyState) (hc : content ≠ "") :
    (20 ≤ now - st.lastSendTime → free = true →
      addToBufferAndSend content now free st =
        ({ st with buffer := "", lastSendTime := now,
                   emitted := st.emitted ++ [st.buffer ++ content] }, none)) ∧
    (20 ≤ now - st.lastSendTime → free = false →
      addToBufferAndSend content now free st =
        ({ st with buffer := st.buffer ++ content },
         some ⟨.invalidResponse, "response stream is blocked"⟩)) ∧
    (now - st.lastSendTime < 20 →
      addToBufferAndSend content now free st =
        ({ st with buffer := st.buffer ++ content }, none)) := by
  have hbuf := buf_append st.buffer content
  have hne := append_ne_empty_of_right st.buffer content hc
  refine ⟨?_, ?_, ?_⟩
  · intro hdue hfree
    rw [addToBufferAndSend.eq_def, hbuf, if_pos hdue, if_pos hne, hfree, if_pos rfl]
  · intro hdue hblocked
    rw [addToBufferAndSend.eq_def, hbuf, if_pos hdue, if_pos hne, hblocked]
    simp
  · intro hlate
    rw [addToBufferAndSend.eq_def, hbuf, if_neg (by omega)]

@[simp] theorem runLines_nil (userID : String) (st : DifyState) :
    runLines userID st [] = (st, none) := rfl

theorem runLines_cons (userID : String) (st : DifyState) (li : LineIn)
    (t : List LineIn) :
    runLines userID st (li :: t) =
      match processSSELine userID st li.line li.now li.free with
      | (st', none) => runLines userID st' t
      | (st', some e) => (st', some e) := rfl

theorem length_pos_ne_empty {c : String} (h : c.length > 0) : c ≠ "" := by
  intro hc
  subst hc
  simp [String.length] at h

/-- Core invariant behind C2: on a stream without `agent_thought`
events, the strings sent so far followed by the residual buffer spell
out exactly the deduplicated `message`/`agent_message` contents, in
upstream order — whether the run ends at EOF, at a stream error, or at
a blocked channel. -/
theorem runLines_emit_invariant (userID : String) :
    ∀ lines : List LineIn, (∀ li ∈ lines, lineIsThought li = false) →
    ∀ st : DifyState, ∃ rest : String,
      joinAll (runLines userID st lines).1.emitted ++ rest =
        joinAll st.emitted ++ st.buffer ++
          joinAll (dedupLoop st.sentContent lines) := by
  intro lines
  induction lines with
  | nil =>
    intro _ st
    exact ⟨st.buffer, by simp [dedupLoop]⟩
  | cons li t ih =>
    intro hnt st
    have hnt_t : ∀ x ∈ t, lineIsThought x = false :=
      fun x hx => hnt x (List.mem_cons_of_mem _ hx)
    have hnt_head : lineIsThought li = false := hnt li (List.mem_cons_self _ _)
    obtain ⟨l, now, free⟩ := li
    rw [runLines_cons]
    cases l with
    | notData =>
      simpa [processSSELine, dedupLoop] using ih hnt_t st
    | doneSentinel =>
      simpa [processSSELine, dedupLoop] using ih hnt_t st
    | malformed =>
      exact ⟨st.buffer ++ joinAll (dedupLoop st.sentContent t), by
        simp [processSSELine, dedupLoop, String.append_assoc]⟩
    | parsed r =>
      have hth : ¬ r.event = "agent_thought" := by
        simpa [lineIsThought] using hnt_head
      by_cases hmsg : r.event = "message" ∨ r.event = "agent_message"
      · by_cases hlen : (extractContent r).length > 0
        · by_cases hseen : st.sentContent.contains (extractContent r)
          · -- duplicate fragment: skipped by both code and spec stream
            have hproc : processSSELine userID st (.parsed r) now free =
                (storeConv userID r st, none) := by
              simp only [processSSELine]
              rw [if_pos hmsg]
              simp only [storeConv_sentContent]
              rw [if_pos hlen, if_pos hseen]
            rw [hproc]
            simp only [dedupLoop, hlen]
            rw [if_pos hmsg, if_neg (fun h => h.2 hseen)]
            simpa using ih hnt_t (storeConv userID r st)
          · -- new content: pushed through the emit buffer
            have hc : extractContent r ≠ "" := length_pos_ne_empty hlen
            have hproc : processSSELine userID st (.parsed r) now free =
                addToBufferAndSend (extractContent r) now free
                  { storeConv userID r st with
                      sentContent := st.sentContent ++ [extractContent r] } := by
              simp only [processSSELine]
              rw [if_pos hmsg]
              simp only [storeConv_sentContent]
              rw [if_pos hlen, if_neg hseen]
            have hdedup : dedupLoop st.sentContent (⟨.parsed r, now, free⟩ :: t) =
                extractContent r ::
                  dedupLoop (st.sentContent ++ [extractContent r]) t := by
              simp only [dedupLoop]
              rw [if_pos hmsg, if_pos ⟨hlen, hseen⟩]
            rw [hproc, hdedup]
            obtain ⟨hfree, hblocked, hlate⟩ :=
              addToBufferAndSend_cases (extractContent r) now free
                { storeConv userID r st with
                    sentContent := st.sentContent ++ [extractContent r] } hc
            by_cases hdue : 20 ≤ now -
                ({ storeConv userID r st with
                     sentContent :=
                       st.sentContent ++ [extractContent r] } :
                   DifyState).lastSendTime
            · cases free with
              | true =>
                rw [hfree hdue rfl]
                obtain ⟨rest, hrest⟩ := ih hnt_t
                  { storeConv userID r st with
                      sentContent := st.sentContent ++ [extractContent r]
                      buffer := "", lastSendTime := now
                      emitted :=
                        ({ storeConv userID r st with
                             sentContent :=
                               st.sentContent ++ [extractContent r] } :
                           DifyState).emitted ++
                          [({ storeConv userID r st with
                               sentContent :=
                                 st.sentContent ++ [extractContent r] } :
                             DifyState).buffer ++ extractContent r]
                  }
                refine ⟨rest, ?_⟩
                rw [hrest]
                simp [joinAll_append, String.append_assoc]
              | false =>
                rw [hblocked hdue rfl]
                refine ⟨st.buffer ++ (extractContent r ++
                  joinAll (dedupLoop (st.sentContent ++ [extractContent r]) t)), ?_⟩
                simp [String.append_assoc]
            · have hlate' : now -
                  ({ storeConv userID r st with
                       sentContent :=
                         st.sentContent ++ [extractContent r] } :
                     DifyState).lastSendTime < 20 := by omega
              rw [hlate hlate']
              obtain ⟨rest, hrest⟩ := ih hnt_t
                { storeConv userID r st with
                    sentContent := st.sentContent ++ [extractContent r]
                    buffer :=
                      ({ storeConv userID r st with
                           sentContent :=
                             st.sentContent ++ [extractContent r] } :
                         DifyState).buffer ++ extractContent r }
              refine ⟨rest, ?_⟩
              rw [hrest]
              simp [String.append_assoc]
        · -- empty extracted content: nothing pushed
          have hproc : processSSELine userID st (.parsed r) now free =
              (storeConv userID r st, none) := by
            simp only [processSSELine]
            rw [if_pos hmsg, if_neg hlen]
          rw [hproc]
          simp only [dedupLoop]
          rw [if_pos hmsg, if_neg (by simp [hlen])]
          simpa using ih hnt_t (storeConv userID r st)
      · -- not a content event (and not a thought, by hypothesis)
        by_cases herr : r.event = "error"
        · have hproc : ∃ e, processSSELine userID st (.parsed r) now free =
              (storeConv userID r st, some e) := by
            simp only [processSSELine]
            rw [if_neg hmsg, if_neg hth, if_pos herr]
            exact ⟨_, rfl⟩
          obtain ⟨e, hproc⟩ := hproc
          rw [hproc]
          refine ⟨st.buffer ++ joinAll (dedupLoop st.sentContent t), ?_⟩
          simp only [dedupLoop]
          rw [if_neg hmsg]
          simp [String.append_assoc]
        · have hproc : processSSELine userID st (.parsed r) now free =
              (storeConv userID r st, none) := by
            simp only [processSSELine]
            rw [if_neg hmsg, if_neg hth, if_neg herr]
          rw [hproc]
          simp only [dedupLoop]
          rw [if_neg hmsg]
          simpa using ih hnt_t (storeConv userID r st)

/-- Every error produced inside the line loop is `invalid_response`
(unmarshal failure, `error` event, blocked channel). -/
theorem addToBufferAndSend_err (content : String) (now : Nat) (free : Bool)
    (st st' : DifyState) (e : ErrM)
    (h : addToBufferAndSend content now free st = (st', some e)) :
    e = ⟨.invalidResponse, "response stream is blocked"⟩ := by
  unfold addToBufferAndSend at h
  by_cases h1 : 20 ≤ now - st.lastSendTime
  · rw [if_pos h1] at h
    by_cases h2 : (if st.buffer = "" then content else st.buffer ++ content) ≠ ""
    · rw [if_pos h2] at h
      cases free with
      | true => rw [if_pos rfl] at h; cases h
      | false =>
        rw [if_neg (by simp)] at h
        cases h
        rfl
    · rw [if_neg h2] at h; cases h
  · rw [if_neg h1] at h; cases h

theorem processSSELine_err (u : String) (st : DifyState) (l : SSELine) (now : Nat)
    (free : Bool) (st' : DifyState) (e : ErrM)
    (h : processSSELine u st l now free = (st', some e)) :
    e.code = .invalidResponse := by
  cases l with
  | notData => cases h
  | doneSentinel => cases h
  | malformed => cases h; rfl
  | parsed r =>
    simp only [processSSELine] at h
    repeat' split at h
    all_goals
      first
        | (cases h <;> rfl)
        | exact (addToBufferAndSend_err _ _ _ _ _ _ h) ▸ rfl

theorem runLines_err (u : String) :
    ∀ (lines : List LineIn) (st st' : DifyState) (e : ErrM),
      runLines u st lines = (st', some e) → e.code = .invalidResponse := by
  intro lines
  induction lines with
  | nil => intro st st' e h; cases h
  | cons li t ih =>
    intro st st' e h
    rw [runLines_cons] at h
    cases hp : processSSELine u st li.line li.now li.free with
    | mk st1 err? =>
      cases err? with
      | none => rw [hp] at h; exact ih st1 st' e h
      | some e1 =>
        rw [hp] at h
        cases h
        exact processSSELine_err _ _ _ _ _ _ _ hp

/-- A run of the retry loop with no scripts left only accumulates
connection failures and never changes the adapter state. -/
theorem retryLoop_nil_scripts (userID : String) :
    ∀ (fuel : Nat) (st : DifyState) (convId : String) (issued : List String),
      (retryLoop userID fuel st convId [] issued).state = st := by
  intro fuel
  induction fuel with
  | zero => intro st convId issued; rfl
  | succ n ih =>
    intro st convId issued
    have hnc : strContains "error sending request" "Conversation Not Exists" = false := by
      decide
    simp only [retryLoop, nextScript, doStreamRequest, hnc]
    simpa [ErrCode.isTemporary] using ih st convId (issued ++ [convId])

/-- A `StreamChat` call whose single upstream exchange is an SSE stream
ends in the state the line loop produces, whatever that run returns. -/
theorem streamChat_single_stream_state (maxRetries : Nat) (st0 : DifyState)
    (messages : List Message) (lines : List LineIn)
    (hv : validateMessages messages = none) :
    (streamChat maxRetries st0 messages [.stream lines]).state =
      (runLines (extractUserID messages) { st0 with sentContent := [] } lines).1 := by
  unfold streamChat
  rw [hv]
  simp only [retryLoop, nextScript, doStreamRequest]
  cases hrun : runLines (extractUserID messages) { st0 with sentContent := [] } lines
    with
  | mk st' err? =>
    cases err? with
    | none => rfl
    | some e =>
      have hcode := runLines_err _ _ _ _ _ hrun
      simp only []
      split
      · -- "Conversation Not Exists" in the error text: reissue once with
        -- no scripts left, then drain the remaining retries
        have hnc : strContains "error sending request" "Conversation Not Exists" =
            false := by decide
        simp only [nextScript, doStreamRequest, ErrCode.isTemporary,
          if_pos rfl]
        simpa using retryLoop_nil_scripts _ _ _ _ _
      · rw [if_neg (by simp [hcode, ErrCode.isTemporary])]

end Dify

/-! ### Claims C2, C3 and C4 -/

open Dify Ai in
/-- C2 counterexample: the claim asserts that the concatenation of all
strings emitted on the outbound channel is a prefix of the deduped
`message`/`agent_message` contents.  An `agent_thought` event is sent
directly to the channel, bypassing the emit buffer: with `"A"` still
buffered (only 10 ms elapsed), the thought `"T"` is emitted first, and
`"T"` is not a prefix of `"A"`. -/
theorem C2_emitted_prefix_counterexample :
    (streamChat 3 ⟨[], [], "", 0, []⟩ [{ role := "user", content := "hi" }]
        [.stream [⟨.parsed { event := "message", dataText := "A" }, 10, true⟩,
                  ⟨.parsed { event := "agent_thought", thought := "T" }, 15, true⟩]]
      ).state.emitted = ["T"] ∧
    dedupLoop [] [⟨.parsed { event := "message", dataText := "A" }, 10, true⟩,
                  ⟨.parsed { event := "agent_thought", thought := "T" }, 15, true⟩] =
      ["A"] ∧
    ∀ rest : String, joinAll ["T"] ++ rest ≠ joinAll ["A"] := by
  refine ⟨by decide, by decide, ?_⟩
  intro rest h
  have hd := congrArg String.data h
  simp only [joinAll, String.data_append] at hd
  simp at hd

open Dify Ai in
/-- C2 (amended): for a `StreamChat` invocation that starts with an
empty emit buffer and whose upstream stream contains no `agent_thought`
events, the concatenation of the strings emitted on the outbound
channel is a prefix of the concatenation, in upstream reception order,
of the deduplicated `message`/`agent_message` contents — whether the
run ends at EOF, at a stream error, or at a blocked channel. -/
theorem C2_emitted_prefix_of_dedup (maxRetries : Nat)
    (conv0 : List (String × String)) (sent0 : List String) (last0 : Nat)
    (messages : List Message) (lines : List LineIn)
    (hv : validateMessages messages = none)
    (hnt : ∀ li ∈ lines, lineIsThought li = false) :
    ∃ rest : String,
      joinAll (streamChat maxRetries ⟨conv0, sent0, "", last0, []⟩ messages
          [.stream lines]).state.emitted ++ rest =
        joinAll (dedupLoop [] lines) := by
  rw [streamChat_single_stream_state maxRetries _ messages lines hv]
  obtain ⟨rest, hrest⟩ :=
    runLines_emit_invariant (extractUserID messages) lines hnt
      { (⟨conv0, sent0, "", last0, []⟩ : DifyState) with sentContent := [] }
  exact ⟨rest, by simpa using hrest⟩

open Dify Ai in
/-- Witness for `C2_emitted_prefix_of_dedup`: a single message fragment
`"Hello"` arriving after the 20 ms window is emitted, and the emitted
concatenation is a prefix of the deduped upstream contents. -/
theorem C2_emitted_prefix_of_dedup_witness :
    ∃ rest : String,
      joinAll (streamChat 3 ⟨[], [], "", 0, []⟩ [{ role := "user", content := "hi" }]
          [.stream [⟨.parsed { event := "message", dataText := "Hello" }, 25, true⟩]]
        ).state.emitted ++ rest =
        joinAll (dedupLoop []
          [⟨.parsed { event := "message", dataText := "Hello" }, 25, true⟩]) :=
  C2_emitted_prefix_of_dedup 3 [] [] 0 _ _ (by rfl) (by decide)

namespace Dify

theorem hasSub_append_right (n b : List Char) (h : hasSub n b = true) :
    ∀ a : List Char, hasSub n (a ++ b) = true := by
  intro a
  induction a with
  | nil => simpa using h
  | cons c t ih => simp [hasSub, ih]

theorem strContains_append_right (a b n : String) (h : strContains b n = true) :
    strContains (a ++ b) n = true := by
  unfold strContains at *
  rw [String.data_append]
  exact hasSub_append_right _ _ h _

/-- Whether a line carries a conversation id. -/
def lineHasConv (li : LineIn) : Bool :=
  match li.line with
  | .parsed r => decide (convIdOf r ≠ "")
  | _ => false

theorem storeConv_of_no_conv (u : String) (r : StreamResp) (st : DifyState)
    (h : convIdOf r = "") : storeConv u r st = st := by
  unfold storeConv
  split_ifs <;> simp_all

theorem addToBufferAndSend_conversations (c : String) (now : Nat) (free : Bool)
    (st : DifyState) :
    (addToBufferAndSend c now free st).1.conversations = st.conversations := by
  simp only [addToBufferAndSend]
  split_ifs <;> rfl

theorem processSSELine_conversations (u : String) (st : DifyState) (l : SSELine)
    (now : Nat) (free : Bool) (h : lineHasConv ⟨l, now, free⟩ = false) :
    (processSSELine u st l now free).1.conversations = st.conversations := by
  cases l with
  | notData => rfl
  | doneSentinel => rfl
  | malformed => rfl
  | parsed r =>
    have hc : convIdOf r = "" := by simpa [lineHasConv] using h
    simp only [processSSELine, storeConv_of_no_conv u r st hc]
    repeat' split
    all_goals first | rfl | simp [addToBufferAndSend_conversations]

theorem runLines_conversations (u : String) :
    ∀ (lines : List LineIn) (st : DifyState),
      (∀ li ∈ lines, lineHasConv li = false) →
      (runLines u st lines).1.conversations = st.conversations := by
  intro lines
  induction lines with
  | nil => intro st _; rfl
  | cons li t ih =>
    intro st hall
    rw [runLines_cons]
    obtain ⟨l, now, free⟩ := li
    have hhead := hall _ (List.mem_cons_self _ _)
    have hconv := processSSELine_conversations u st l now free hhead
    cases hp : processSSELine u st l now free with
    | mk st1 err? =>
      rw [hp] at hconv
      cases err? with
      | none =>
        rw [ih st1 (fun x hx => hall x (List.mem_cons_of_mem _ hx))]
        exact hconv
      | some e => exact hconv

end Dify

/-! ### Claim C3 -/

open Dify Ai in
/-- C3 counterexample: the claim states that on `message_end` (or
`done`) the buffered remainder is flushed to the channel before
`StreamChat` returns success.  A fragment `"A"` arriving 10 ms after
the last send is buffered without emitting; the following
`message_end` is processed and the stream ends — `StreamChat` returns
success with nothing emitted and `"A"` still sitting in the buffer. -/
theorem C3_flush_on_end_counterexample :
    (streamChat 3 ⟨[], [], "", 0, []⟩ [{ role := "user", content := "hi" }]
        [.stream [⟨.parsed { event := "message", dataText := "A" }, 10, true⟩,
                  ⟨.parsed { event := "message_end" }, 15, true⟩]]).result = none ∧
    (streamChat 3 ⟨[], [], "", 0, []⟩ [{ role := "user", content := "hi" }]
        [.stream [⟨.parsed { event := "message", dataText := "A" }, 10, true⟩,
                  ⟨.parsed { event := "message_end" }, 15, true⟩]]).state.emitted =
      [] ∧
    (streamChat 3 ⟨[], [], "", 0, []⟩ [{ role := "user", content := "hi" }]
        [.stream [⟨.parsed { event := "message", dataText := "A" }, 10, true⟩,
                  ⟨.parsed { event := "message_end" }, 15, true⟩]]).state.buffer =
      "A" := by
  decide

open Dify Ai in
/-- C3 (amended): deduplicated content accumulates in the emit buffer
and is emitted as a single channel send only when at least 20 ms have
elapsed since the last emit (clearing the buffer and updating
`last_emit`); a non-blocking send that would block makes `StreamChat`
return an `invalid_response` error; but `message_end` / `done` events
perform no flush — they leave the buffer and the emitted sequence
untouched, and `StreamChat` returns success at EOF with the buffered
remainder unsent. -/
theorem C3_emit_buffer_contract :
    (∀ (content : String) (now : Nat) (free : Bool) (st : DifyState),
      content ≠ "" →
      (20 ≤ now - st.lastSendTime → free = true →
        addToBufferAndSend content now free st =
          ({ st with buffer := "", lastSendTime := now,
                     emitted := st.emitted ++ [st.buffer ++ content] }, none)) ∧
      (20 ≤ now - st.lastSendTime → free = false →
        addToBufferAndSend content now free st =
          ({ st with buffer := st.buffer ++ content },
           some ⟨.invalidResponse, "response stream is blocked"⟩)) ∧
      (now - st.lastSendTime < 20 →
        addToBufferAndSend content now free st =
          ({ st with buffer := st.buffer ++ content }, none))) ∧
    (∀ (maxRetries : Nat) (st0 : DifyState) (messages : List Message)
        (lines : List LineIn) (st' : DifyState) (e : ErrM),
      validateMessages messages = none →
      runLines (extractUserID messages) { st0 with sentContent := [] } lines =
        (st', some e) →
      strContains e.message "Conversation Not Exists" = false →
      (streamChat maxRetries st0 messages [.stream lines]).result = some e ∧
      e.code = .invalidResponse) ∧
    (∀ (userID : String) (st : DifyState) (r : StreamResp) (now : Nat) (free : Bool),
      r.event = "message_end" ∨ r.event = "done" →
      processSSELine userID st (.parsed r) now free = (storeConv userID r st, none)) := by
  refine ⟨?_, ?_, ?_⟩
  · exact fun content now free st hc => addToBufferAndSend_cases content now free st hc
  · intro maxRetries st0 messages lines st' e hv hrun hnc
    have hcode := runLines_err _ _ _ _ _ hrun
    refine ⟨?_, hcode⟩
    unfold streamChat
    rw [hv]
    simp only [retryLoop, nextScript, doStreamRequest]
    rw [hrun]
    simp only [hnc, Bool.false_eq_true, if_false, hcode, ErrCode.isTemporary]
  · intro userID st r now free hend
    rcases hend with h | h <;>
      (simp only [processSSELine, h]
       rw [if_neg (by decide), if_neg (by decide), if_neg (by decide)])

open Dify Ai in
/-- Witness for `C3_emit_buffer_contract`: a due emit sends the
buffered content; a blocked channel surfaces as the `invalid_response`
"response stream is blocked" error from `StreamChat`; `message_end` is
a no-op on the buffer. -/
theorem C3_emit_buffer_contract_witness :
    addToBufferAndSend "A" 25 true ⟨[], [], "", 0, []⟩ =
      (⟨[], [], "", 25, ["A"]⟩, none) ∧
    (streamChat 3 ⟨[], [], "", 0, []⟩ [{ role := "user", content := "hi" }]
        [.stream [⟨.parsed { event := "message", dataText := "B" }, 30, false⟩]]
      ).result = some ⟨.invalidResponse, "response stream is blocked"⟩ ∧
    processSSELine "U" ⟨[], [], "", 0, []⟩ (.parsed { event := "message_end" }) 5
        true =
      (storeConv "U" { event := "message_end" } ⟨[], [], "", 0, []⟩, none) :=
  ⟨(C3_emit_buffer_contract.1 "A" 25 true ⟨[], [], "", 0, []⟩ (by decide)).1
      (by decide) rfl,
   (C3_emit_buffer_contract.2.1 3 ⟨[], [], "", 0, []⟩
      [{ role := "user", content := "hi" }]
      [⟨.parsed { event := "message", dataText := "B" }, 30, false⟩]
      ⟨[], ["B"], "B", 0, []⟩ ⟨.invalidResponse, "response stream is blocked"⟩
      rfl (by decide) (by decide)).1,
   C3_emit_buffer_contract.2.2 "U" ⟨[], [], "", 0, []⟩ { event := "message_end" } 5
      true (Or.inl rfl)⟩

/-! ### Claim C4 -/

open Dify Ai in
/-- C4 counterexample: the claim states that on an upstream response
containing "Conversation Not Exists" the *cached* conversation id for
the user is cleared.  The code only empties the request-body
`conversation_id` for the reissue; after the successful reissue the
conversation cache still holds the stale entry `("U1", "C1")`. -/
theorem C4_cache_not_cleared_counterexample :
    (streamChat 3 ⟨[("U1", "C1")], [], "", 0, []⟩
        [{ role := "user", content := "hi", metadata := [("user_id", "U1")] }]
        [.badStatus 400 "Conversation Not Exists", .stream []]).result = none ∧
    (streamChat 3 ⟨[("U1", "C1")], [], "", 0, []⟩
        [{ role := "user", content := "hi", metadata := [("user_id", "U1")] }]
        [.badStatus 400 "Conversation Not Exists", .stream []]).issued = ["C1", ""] ∧
    lookupKV (streamChat 3 ⟨[("U1", "C1")], [], "", 0, []⟩
        [{ role := "user", content := "hi", metadata := [("user_id", "U1")] }]
        [.badStatus 400 "Conversation Not Exists", .stream []]).state.conversations
      "U1" = some "C1" := by
  decide

open Dify Ai in
/-- C4 (amended): on an upstream response whose body contains
"Conversation Not Exists", the request-body `conversation_id` is
emptied and the request reissued exactly once (the issued trace is
`[cached_id, ""]`); when the reissue succeeds `StreamChat` returns no
error.  The per-user conversation cache entry is not deleted: it is
left in place unless a stream event carries a new conversation id. -/
theorem C4_conv_not_exists_reissue (maxRetries : Nat) (st0 : DifyState)
    (messages : List Message) (status : Nat) (body : String) (lines : List LineIn)
    (more : List Script)
    (hv : validateMessages messages = none)
    (hbody : strContains body "Conversation Not Exists" = true)
    (hok : (runLines (extractUserID messages) { st0 with sentContent := [] }
              lines).2 = none) :
    streamChat maxRetries st0 messages (.badStatus status body :: .stream lines ::
        more) =
      ⟨none,
       (runLines (extractUserID messages) { st0 with sentContent := [] } lines).1,
       [(lookupKV st0.conversations (extractUserID messages)).getD "", ""]⟩ ∧
    ((∀ li ∈ lines, lineHasConv li = false) →
      (runLines (extractUserID messages)
          { st0 with sentContent := [] } lines).1.conversations =
        st0.conversations) := by
  constructor
  · unfold streamChat
    rw [hv]
    have hc : strContains
        ("unexpected status code: " ++ toString status ++ ", body: " ++ body)
        "Conversation Not Exists" = true :=
      strContains_append_right _ _ _ hbody
    simp only [retryLoop, nextScript, doStreamRequest]
    rw [if_pos hc]
    cases hrun : runLines (extractUserID messages) { st0 with sentContent := [] }
      lines with
    | mk stR errR =>
      rw [hrun] at hok
      cases errR with
      | none => simp
      | some e => cases hok
  · intro hnoconv
    exact runLines_conversations (extractUserID messages) lines
      { st0 with sentContent := [] } hnoconv

open Dify Ai in
/-- Witness for `C4_conv_not_exists_reissue`: cached id `"C9"` for user
`"U2"`, a 404 whose body contains the phrase, and an empty reissued
stream — one reissue with empty conversation id, success, and the
stale cache entry still present. -/
theorem C4_conv_not_exists_reissue_witness :
    streamChat 5 ⟨[("U2", "C9")], [], "", 0, []⟩
        [{ role := "user", content := "hello", metadata := [("user_id", "U2")] }]
        [.badStatus 404 "err: Conversation Not Exists!", .stream []] =
      ⟨none, ⟨[("U2", "C9")], [], "", 0, []⟩, ["C9", ""]⟩ ∧
    lookupKV (streamChat 5 ⟨[("U2", "C9")], [], "", 0, []⟩
        [{ role := "user", content := "hello", metadata := [("user_id", "U2")] }]
        [.badStatus 404 "err: Conversation Not Exists!", .stream []]
      ).state.conversations "U2" = some "C9" := by
  have h := C4_conv_not_exists_reissue 5 ⟨[("U2", "C9")], [], "", 0, []⟩
    [{ role := "user", content := "hello", metadata := [("user_id", "U2")] }]
    404 "err: Conversation Not Exists!" [] [] rfl (by decide) rfl
  refine ⟨?_, ?_⟩ <;> rw [h.1] <;> decide

/-! ## Token cache — `handlers/msg.go` `getTenantAccessToken` -/

namespace TokenCache

/-- The two package-level cache variables `tokenCache` / `tokenExpiry`.
`tokenExpiry` is a wall-clock instant in seconds (`Int`, since the code
can compute an expiry in the past when the reported expiry is small). -/
structure TokenState where
  tokenCache : String
  tokenExpiry : Int
  deriving Repr, DecidableEq

/-- Outcome of the HTTP refresh call, covering every branch the code
distinguishes: transport error, non-200 status, JSON decode failure,
non-zero API code, and success carrying `tenant_access_token`/`expire`. -/
inductive RefreshResult where
  | netErr
  | badStatus (status : Nat) (body : String)
  | decodeErr
  | apiErr (code : Int) (msg : String)
  | ok (token : String) (expire : Int)
  deriving Repr, DecidableEq

/-- Whether the refresh outcome is one of the four failure branches. -/
def RefreshResult.isFailure : RefreshResult → Bool
  | .ok _ _ => false
  | _ => true

/-- Result of one `getTenantAccessToken` call: the returned token or an
error, the updated cache variables, and whether the HTTP refresh was
performed (`didIO`). -/
structure CallResult where
  result : Except String String
  state : TokenState
  didIO : Bool
  deriving Repr

/-- `getTenantAccessToken`.  The double-checked read is collapsed: no
time passes between the read-lock check and the write-lock re-check,
so both evaluate the same predicate on the same state.  `refresh` is
the outcome the upstream auth endpoint would give if called. -/
def getTenantAccessToken (st : TokenState) (now : Int) (refresh : RefreshResult) :
    CallResult :=
  -- fast path: cached token present and now < expiry − 5 min
  if st.tokenCache ≠ "" ∧ now < st.tokenExpiry - 5 * 60 then
    { result := .ok st.tokenCache, state := st, didIO := false }
  else
    -- in each failure branch the code falls back to the stale token when
    -- the cached token has not passed its hard expiry:
    -- `tokenCache != "" && time.Now().Before(tokenExpiry)`
    match refresh with
    | .netErr =>
      if st.tokenCache ≠ "" ∧ now < st.tokenExpiry then
        { result := .ok st.tokenCache, state := st, didIO := true }
      else { result := .error "failed to send request", state := st, didIO := true }
    | .badStatus status body =>
      if st.tokenCache ≠ "" ∧ now < st.tokenExpiry then
        { result := .ok st.tokenCache, state := st, didIO := true }
      else { result := .error s!"API error: status={status}, body={body}",
             state := st, didIO := true }
    | .decodeErr =>
      if st.tokenCache ≠ "" ∧ now < st.tokenExpiry then
        { result := .ok st.tokenCache, state := st, didIO := true }
      else { result := .error "failed to decode response", state := st, didIO := true }
    | .apiErr code msg =>
      if st.tokenCache ≠ "" ∧ now < st.tokenExpiry then
        { result := .ok st.tokenCache, state := st, didIO := true }
      else { result := .error s!"API error: code={code}, msg={msg}",
             state := st, didIO := true }
    | .ok token expire =>
      -- expiresIn := result.Expire; if expiresIn == 0 { expiresIn = 7200 }
      let expiresIn : Int := if expire = 0 then 7200 else expire
      { result := .ok token,
        state := { tokenCache := token, tokenExpiry := now + (expiresIn - 300) },
        didIO := true }

end TokenCache

/-! ### Claims C6 and C7 -/

open TokenCache in
/-- C6 counterexample: the claim states that after a successful refresh
the stored expiry is `now + max(reported_expiry, 7200) − 300` for every
reported expiry.  With `reported_expiry = 100` (at `now = 1000`, empty
cache so the refresh runs) the code stores `1000 + (100 − 300) = 800`,
not `1000 + max(100, 7200) − 300 = 7900`. -/
theorem C6_refresh_expiry_counterexample :
    (getTenantAccessToken ⟨"", 0⟩ 1000 (.ok "tok" 100)).state.tokenExpiry = 800 ∧
    (getTenantAccessToken ⟨"", 0⟩ 1000 (.ok "tok" 100)).state.tokenExpiry ≠
      1000 + (max 100 7200 - 300) := by
  constructor <;> decide

open TokenCache in
/-- C6 (amended): `getTenantAccessToken` returns the cached token
without performing any I/O whenever a cached token exists and
`now < expires_at − 5 min`; and after every successful refresh the
stored expiry is `now + (reported_expiry − 300)`, with `7200`
substituted for the reported expiry only when the report is exactly
`0` (not `max(reported, 7200)`). -/
theorem C6_getToken_fast_path_and_refresh_expiry :
    (∀ (st : TokenState) (now : Int) (refresh : RefreshResult),
      st.tokenCache ≠ "" → now < st.tokenExpiry - 5 * 60 →
        getTenantAccessToken st now refresh =
          { result := .ok st.tokenCache, state := st, didIO := false }) ∧
    (∀ (st : TokenState) (now : Int) (token : String) (expire : Int),
      ¬(st.tokenCache ≠ "" ∧ now < st.tokenExpiry - 5 * 60) →
        getTenantAccessToken st now (.ok token expire) =
          { result := .ok token,
            state := { tokenCache := token,
                       tokenExpiry :=
                         now + ((if expire = 0 then 7200 else expire) - 300) },
            didIO := true }) := by
  constructor
  · intro st now refresh hc hf
    rw [getTenantAccessToken.eq_def, if_pos ⟨hc, hf⟩]
  · intro st now token expire hfast
    rw [getTenantAccessToken.eq_def, if_neg hfast]

open TokenCache in
/-- Witness for `C6_getToken_fast_path_and_refresh_expiry` at concrete
inputs: a fresh cached token is returned without I/O, and a cold-cache
refresh reporting expiry `7200` stores expiry `now + 6900`. -/
theorem C6_getToken_fast_path_and_refresh_expiry_witness :
    getTenantAccessToken ⟨"cached", 10000⟩ 100 .netErr =
      { result := .ok "cached", state := ⟨"cached", 10000⟩, didIO := false } ∧
    getTenantAccessToken ⟨"", 0⟩ 1000 (.ok "tok" 7200) =
      { result := .ok "tok", state := ⟨"tok", 1000 + (7200 - 300)⟩, didIO := true } := by
  exact ⟨C6_getToken_fast_path_and_refresh_expiry.1 ⟨"cached", 10000⟩ 100 .netErr
            (by decide) (by decide),
         C6_getToken_fast_path_and_refresh_expiry.2 ⟨"", 0⟩ 1000 "tok" 7200
            (by decide)⟩

open TokenCache in
/-- C7: for every failing refresh attempt (network error, non-2xx
status, decode error, or non-zero upstream API code), if the cached
token has not passed its hard expiry the call returns that stale token
with no error and leaves the cache unchanged; it returns an error only
when no usable cached token exists. -/
theorem C7_getToken_stale_degradation :
    ∀ (st : TokenState) (now : Int) (refresh : RefreshResult),
      refresh.isFailure = true →
      ((st.tokenCache ≠ "" ∧ now < st.tokenExpiry) →
        (getTenantAccessToken st now refresh).result = .ok st.tokenCache ∧
        (getTenantAccessToken st now refresh).state = st) ∧
      (¬(st.tokenCache ≠ "" ∧ now < st.tokenExpiry) →
        ∃ e, (getTenantAccessToken st now refresh).result = .error e) := by
  intro st now refresh hfail
  constructor
  · intro husable
    by_cases hfast : st.tokenCache ≠ "" ∧ now < st.tokenExpiry - 5 * 60
    · rw [getTenantAccessToken.eq_def, if_pos hfast]; exact ⟨rfl, rfl⟩
    · rw [getTenantAccessToken.eq_def, if_neg hfast]
      cases refresh <;> simp [RefreshResult.isFailure] at hfail ⊢ <;>
        rw [if_pos husable] <;> exact ⟨rfl, rfl⟩
  · intro husable
    have hfast : ¬(st.tokenCache ≠ "" ∧ now < st.tokenExpiry - 5 * 60) := by
      intro ⟨hc, hf⟩
      exact husable ⟨hc, by omega⟩
    rw [getTenantAccessToken.eq_def, if_neg hfast]
    cases refresh <;> simp [RefreshResult.isFailure] at hfail ⊢ <;>
      rw [if_neg husable] <;> exact ⟨_, rfl⟩

open TokenCache in
/-- Witness for `C7_getToken_stale_degradation`: with a cached token in
its last five minutes of validity (`now = 9900`, expiry `10000`), a
failing refresh returns the stale token; with an empty cache the same
failure surfaces as an error. -/
theorem C7_getToken_stale_degradation_witness :
    ((getTenantAccessToken ⟨"stale", 10000⟩ 9900 .netErr).result = .ok "stale" ∧
     (getTenantAccessToken ⟨"stale", 10000⟩ 9900 .netErr).state = ⟨"stale", 10000⟩) ∧
    ∃ e, (getTenantAccessToken ⟨"", 0⟩ 9900 .netErr).result = .error e :=
  ⟨(C7_getToken_stale_degradation ⟨"stale", 10000⟩ 9900 .netErr rfl).1
      ⟨by decide, by decide⟩,
   (C7_getToken_stale_degradation ⟨"", 0⟩ 9900 .netErr rfl).2 (by decide)⟩

/-! ## Message orchestrator — `MessageAction.Execute` / `handleCompletion`
(handlers, clean stream-end path) -/

namespace Orchestrator

open Ai

/-- The `SessionMeta` fields `handleCompletion` reads through
`GetSessionInfo`. -/
structure SessionInfoM where
  cardId : String := ""
  conversationID : String := ""
  cacheAddress : String := ""
  deriving Repr, DecidableEq

/-- Observable outcome of the clean-close path: the text written by the
final card update (when one is issued), the message list passed to
`SetMessages` (`none` when `SetMessages` is not called), and the
returned boolean. -/
structure Outcome where
  finalCard : Option String
  persisted : Option (List Message)
  returned : Bool
  deriving Repr, DecidableEq

/-- The `answer` accumulation of the select loop: `answer = res` when
empty, `answer = answer + res` otherwise. -/
def accumAnswer (tokens : List String) : String :=
  tokens.foldl (fun answer res => if answer = "" then res else answer ++ res) ""

/-- `handleCompletion(ctx, a, cardInfo, answer, aiMessages)`:
`GetSessionInfo` failure returns `false` with nothing written; then the
final card is updated with `answer` (`cardOk` is whether that PUT
succeeds — on failure the function returns `false` without
persisting); the assistant turn is appended and `SetMessages` called
only when `answer` is non-empty; the function returns `false` in every
case. -/
def handleCompletion (sessionInfo : Option SessionInfoM) (cardOk : Bool)
    (answer : String) (aiMessages : List Message) : Outcome :=
  match sessionInfo with
  | none => ⟨none, none, false⟩
  | some _ =>
    if ¬ cardOk then ⟨some answer, none, false⟩
    else if answer ≠ "" then
      ⟨some answer,
       some (aiMessages ++ [{ role := "assistant", content := answer }]), false⟩
    else ⟨some answer, none, false⟩

/-- The `chatResponseStream`-closed branch of `MessageAction.Execute`:
with the tokens received before the clean close accumulated into
`answer`, an empty answer writes the "no valid reply" final card and
returns `false` without persisting; otherwise `handleCompletion`
runs. -/
def executeOnClose (sessionInfo : Option SessionInfoM) (cardOk : Bool)
    (aiMessages : List Message) (tokens : List String) : Outcome :=
  let answer := accumAnswer tokens
  if answer = "" then ⟨some "抱歉，未能获取到有效回复", none, false⟩
  else handleCompletion sessionInfo cardOk answer aiMessages

end Orchestrator

/-! ### Claim C9 -/

open Orchestrator Ai in
/-- C9: when the token channel closes cleanly with an empty accumulated
answer, the orchestrator writes the "no valid reply" final card state
and returns without calling `SetMessages`; the assistant turn is passed
to `SetMessages` only when the accumulated answer is non-empty (and
then it is the history plus one assistant message carrying the
answer). -/
theorem C9_empty_answer_not_persisted :
    (∀ (sessionInfo : Option SessionInfoM) (cardOk : Bool)
        (aiMessages : List Message) (tokens : List String),
      accumAnswer tokens = "" →
      executeOnClose sessionInfo cardOk aiMessages tokens =
        ⟨some "抱歉，未能获取到有效回复", none, false⟩) ∧
    (∀ (sessionInfo : Option SessionInfoM) (cardOk : Bool)
        (aiMessages : List Message) (tokens : List String) (msgs : List Message),
      (executeOnClose sessionInfo cardOk aiMessages tokens).persisted = some msgs →
      accumAnswer tokens ≠ "" ∧
      msgs = aiMessages ++
        [{ role := "assistant", content := accumAnswer tokens }]) := by
  constructor
  · intro sessionInfo cardOk aiMessages tokens hempty
    simp only [executeOnClose]
    rw [if_pos hempty]
  · intro sessionInfo cardOk aiMessages tokens msgs hp
    simp only [executeOnClose] at hp
    by_cases hempty : accumAnswer tokens = ""
    · rw [if_pos hempty] at hp
      cases hp
    · rw [if_neg hempty] at hp
      refine ⟨hempty, ?_⟩
      unfold handleCompletion at hp
      cases sessionInfo with
      | none => cases hp
      | some info =>
        by_cases hcard : cardOk = true
        · simp only [hcard] at hp
          rw [if_neg (by simp)] at hp
          rw [if_pos hempty] at hp
          cases hp
          rfl
        · have : cardOk = false := by
            cases cardOk
            · rfl
            · exact absurd rfl hcard
          simp only [this] at hp
          rw [if_pos (by simp)] at hp
          cases hp

open Orchestrator Ai in
/-- Witness for `C9_empty_answer_not_persisted`: a stream that closed
with no tokens yields the "no valid reply" card and no persistence; a
stream that delivered `"Hi"` and `" there"` persists the history plus
the assistant turn `"Hi there"`. -/
theorem C9_empty_answer_not_persisted_witness :
    executeOnClose (some ({} : SessionInfoM)) true
        [{ role := "user", content := "hello" }] [] =
      ⟨some "抱歉，未能获取到有效回复", none, false⟩ ∧
    (accumAnswer ["Hi", " there"] ≠ "" ∧
      ([{ role := "user", content := "hello" },
        { role := "assistant", content := "Hi there" }] : List Message) =
        ([{ role := "user", content := "hello" }] : List Message) ++
          [{ role := "assistant", content := accumAnswer ["Hi", " there"] }]) :=
  ⟨C9_empty_answer_not_persisted.1 (some ({} : SessionInfoM)) true
      [{ role := "user", content := "hello" }] [] rfl,
   C9_empty_answer_not_persisted.2 (some ({} : SessionInfoM)) true
      [{ role := "user", content := "hello" }] ["Hi", " there"]
      [{ role := "user", content := "hello" },
       { role := "assistant", content := "Hi there" }] (by rfl)⟩

/-! ## Heap-level model of `GetMessages` (metadata map aliasing) -/

namespace HeapModel

/-- A message whose metadata field is a *reference* to a map (Go maps
are reference types); `none` models a `nil` map. -/
structure MessageH where
  role : String
  content : String
  metadata : Option Nat
  deriving Repr, DecidableEq

/-- A heap of metadata maps: allocation counter plus store. -/
structure Heap where
  nextAddr : Nat
  store : Nat → List (String × String)

/-- The heap after `make(map[string]string)` plus the `session_id`
write, for a stored message whose metadata was `nil` (the fresh map is
referenced only by the returned copy). -/
def allocHeap (sid : String) (h : Heap) : Heap :=
  ⟨h.nextAddr + 1,
   fun x => if x = h.nextAddr then [("session_id", sid)] else h.store x⟩

/-- The heap after `messages[i].Metadata["session_id"] = sessionId`
through a shared map pointer `a`. -/
def mutHeap (sid : String) (a : Nat) (h : Heap) : Heap :=
  ⟨h.nextAddr,
   fun x => if x = a then insertKV (h.store a) "session_id" sid else h.store x⟩

/-- `GetMessages`' copy loop at the heap level: `messages[i] = msg`
copies the struct (sharing the metadata pointer); a `nil` metadata gets
a freshly allocated map on the copy only; then
`messages[i].Metadata["session_id"] = sessionId` writes through the
(possibly shared) pointer. -/
def getMessagesH (sid : String) : List MessageH → Heap → List MessageH × Heap
  | [], h => ([], h)
  | msg :: t, h =>
    match msg.metadata with
    | none =>
      let r := getMessagesH sid t (allocHeap sid h)
      ({ msg with metadata := some h.nextAddr } :: r.1, r.2)
    | some a =>
      let r := getMessagesH sid t (mutHeap sid a h)
      (msg :: r.1, r.2)

theorem getMessagesH_cons_none (sid : String) (msg : MessageH) (t : List MessageH)
    (h : Heap) (hm : msg.metadata = none) :
    getMessagesH sid (msg :: t) h =
      ({ msg with metadata := some h.nextAddr } ::
        (getMessagesH sid t (allocHeap sid h)).1,
       (getMessagesH sid t (allocHeap sid h)).2) := by
  simp only [getMessagesH, hm]

theorem getMessagesH_cons_some (sid : String) (msg : MessageH) (t : List MessageH)
    (h : Heap) (a : Nat) (hm : msg.metadata = some a) :
    getMessagesH sid (msg :: t) h =
      (msg :: (getMessagesH sid t (mutHeap sid a h)).1,
       (getMessagesH sid t (mutHeap sid a h)).2) := by
  simp only [getMessagesH, hm]

theorem getMessagesH_preserves_sid (sid : String) :
    ∀ (msgs : List MessageH) (h : Heap) (a : Nat),
      a < h.nextAddr →
      lookupKV (h.store a) "session_id" = some sid →
      lookupKV ((getMessagesH sid msgs h).2.store a) "session_id" = some sid := by
  intro msgs
  induction msgs with
  | nil => intro h a _ hs; exact hs
  | cons msg t ih =>
    intro h a ha hs
    cases hm : msg.metadata with
    | none =>
      rw [getMessagesH_cons_none sid msg t h hm]
      refine ih (allocHeap sid h) a (by simp [allocHeap]; omega) ?_
      simp only [allocHeap]
      rw [if_neg (by omega)]
      exact hs
    | some b =>
      rw [getMessagesH_cons_some sid msg t h b hm]
      refine ih (mutHeap sid b h) a (by simpa [mutHeap] using ha) ?_
      simp only [mutHeap]
      by_cases hb : a = b
      · subst hb
        rw [if_pos rfl, lookupKV_insertKV_self]
      · rw [if_neg hb]
        exact hs

end HeapModel

/-! ### Claim C10 -/

open HeapModel in
/-- C10: `GetMessages` makes only a shallow copy — a stored message
that already has a metadata map shares that same map (address) with
the returned message, and the `session_id` write during `GetMessages`
mutates it, so the metadata of the message held inside the cached
`SessionMeta` now carries `session_id = sid`: the read-only query
changed the stored session state. -/
theorem C10_getMessages_shallow_copy_mutates (sid : String) :
    ∀ (msgs : List MessageH) (h : Heap),
      (∀ m ∈ msgs, ∀ a : Nat, m.metadata = some a → a < h.nextAddr) →
      ∀ (i : Nat) (m : MessageH) (a : Nat),
        msgs[i]? = some m → m.metadata = some a →
        (getMessagesH sid msgs h).1[i]? = some m ∧
        lookupKV ((getMessagesH sid msgs h).2.store a) "session_id" = some sid := by
  intro msgs
  induction msgs with
  | nil =>
    intro h _ i m a hi
    simp at hi
  | cons msg t ih =>
    intro h hwf i m a hi hma
    cases i with
    | zero =>
      simp only [List.getElem?_cons_zero, Option.some.injEq] at hi
      subst hi
      rw [getMessagesH_cons_some sid msg t h a hma]
      constructor
      · simp
      · refine getMessagesH_preserves_sid sid t (mutHeap sid a h) a ?_ ?_
        · simpa [mutHeap] using hwf msg (List.mem_cons_self _ _) a hma
        · simp [mutHeap, lookupKV_insertKV_self]
    | succ j =>
      simp only [List.getElem?_cons_succ] at hi
      have hwf_t : ∀ x ∈ t, ∀ b : Nat, x.metadata = some b → b < h.nextAddr :=
        fun x hx b hb => hwf x (List.mem_cons_of_mem _ hx) b hb
      cases hm : msg.metadata with
      | none =>
        rw [getMessagesH_cons_none sid msg t h hm]
        have := ih (allocHeap sid h)
          (fun x hx b hb => by
            simpa [allocHeap] using
              Nat.lt_trans (hwf_t x hx b hb) (Nat.lt_succ_self _))
          j m a hi hma
        exact ⟨by simpa using this.1, this.2⟩
      | some b =>
        rw [getMessagesH_cons_some sid msg t h b hm]
        have := ih (mutHeap sid b h)
          (fun x hx c hc => by simpa [mutHeap] using hwf_t x hx c hc)
          j m a hi hma
        exact ⟨by simpa using this.1, this.2⟩

open HeapModel in
/-- Witness for `C10_getMessages_shallow_copy_mutates`: one stored
message whose metadata map lives at address `0` and is empty before the
call; after `GetMessages` the returned message still points at address
`0` and the stored map now contains `session_id = "S1"` — the cached
state was mutated by the read. -/
theorem C10_getMessages_shallow_copy_mutates_witness :
    lookupKV ((⟨1, fun _ => []⟩ : Heap).store 0) "session_id" = none ∧
    (getMessagesH "S1" [⟨"user", "hi", some 0⟩] ⟨1, fun _ => []⟩).1[0]? =
      some ⟨"user", "hi", some 0⟩ ∧
    lookupKV ((getMessagesH "S1" [⟨"user", "hi", some 0⟩]
        ⟨1, fun _ => []⟩).2.store 0) "session_id" = some "S1" := by
  have h := C10_getMessages_shallow_copy_mutates "S1" [⟨"user", "hi", some 0⟩]
    ⟨1, fun _ => []⟩ (by intro m hm a ha; simp at hm; subst hm; cases ha; decide)
    0 ⟨"user", "hi", some 0⟩ 0 rfl rfl
  exact ⟨rfl, h.1, h.2⟩

end FeishuBot
